import Mathlib

set_option autoImplicit false

/-!
Verification development for the storacha-migration-tool repository.

Shallow embedding of the parts of the source relevant to the frozen claims:
 - `src/src/managers/EventManager.ts`  (progress aggregation; namespace `EM`)
 - `src/src/managers/RetryManager.ts`  (bounded retry with backoff; namespace `Retry`)
 - `src/src/StorachaMigrator.ts`       (migration orchestration; namespace `Migrator`)
 - `src/unnamed/part_015`              (the richer EventManager variant; namespace `EM15`)
 - `src/unnamed/part_020`              (StorachaClient upload guard; namespace `SClient`)

JavaScript numbers are modelled by `JsNum`: NaN and the two infinities are
explicit constructors and finite values are idealised as exact rationals
(rounding of IEEE doubles is not the subject of any property below; every
division by zero and NaN propagation path is modelled explicitly).
Presentation-only string renderings (progress bars, `formatBytes` output) are
not modelled; the numeric value each rendering is computed from is.  The
distinguished strings of `estimatedTimeRemaining` are modelled by inductives
whose constructors correspond one to one to the strings the code stores.
-/

namespace Storacha

/-- A JavaScript number: NaN, +Infinity, -Infinity, or a finite value
(idealised as an exact rational). -/
inductive JsNum where
  | nan
  | inf
  | ninf
  | fin (q : ℚ)
deriving DecidableEq

namespace JsNum

/-- JS addition on `JsNum` (IEEE special-value rules; finite part exact). -/
def add : JsNum → JsNum → JsNum
  | nan, _ => nan
  | _, nan => nan
  | inf, ninf => nan
  | ninf, inf => nan
  | inf, _ => inf
  | _, inf => inf
  | ninf, _ => ninf
  | _, ninf => ninf
  | fin a, fin b => fin (a + b)

/-- JS multiplication on `JsNum`. -/
def mul : JsNum → JsNum → JsNum
  | nan, _ => nan
  | _, nan => nan
  | inf, inf => inf
  | inf, ninf => ninf
  | ninf, inf => ninf
  | ninf, ninf => inf
  | inf, fin b => if b = 0 then nan else if 0 < b then inf else ninf
  | fin a, inf => if a = 0 then nan else if 0 < a then inf else ninf
  | ninf, fin b => if b = 0 then nan else if 0 < b then ninf else inf
  | fin a, ninf => if a = 0 then nan else if 0 < a then ninf else inf
  | fin a, fin b => fin (a * b)

/-- JS division on `JsNum`: `0/0 = NaN`, `x/0 = ±Infinity` for finite `x ≠ 0`
(the sign of a zero divisor is idealised as positive; byte counters in this
code base are non-negative). -/
def div : JsNum → JsNum → JsNum
  | nan, _ => nan
  | _, nan => nan
  | inf, inf => nan
  | inf, ninf => nan
  | ninf, inf => nan
  | ninf, ninf => nan
  | inf, fin b => if b < 0 then ninf else inf
  | ninf, fin b => if b < 0 then inf else ninf
  | fin _, inf => fin 0
  | fin _, ninf => fin 0
  | fin a, fin b =>
      if b = 0 then (if a = 0 then nan else if 0 < a then inf else ninf)
      else fin (a / b)

/-- JS `Math.floor` lifted to `JsNum`. -/
def floorJ : JsNum → JsNum
  | nan => nan
  | inf => inf
  | ninf => ninf
  | fin a => fin ((⌊a⌋ : ℤ) : ℚ)

/-- JS `<` against a finite constant (`NaN < c` and `Infinity < c` are false). -/
def ltq : JsNum → ℚ → Bool
  | nan, _ => false
  | inf, _ => false
  | ninf, _ => true
  | fin a, c => decide (a < c)

/-- Truncation towards zero of a rational (the integer JS `%` is based on). -/
def qtrunc (a : ℚ) : ℤ := a.num / a.den

/-- JS `%` against a finite constant (`Infinity % m` and `NaN % m` are NaN). -/
def modq : JsNum → ℚ → JsNum
  | nan, _ => nan
  | inf, _ => nan
  | ninf, _ => nan
  | fin a, m => if m = 0 then nan else fin (a - m * ((qtrunc (a / m) : ℤ) : ℚ))

/-- `finLeB x y` holds when both values are finite and `x ≤ y` — the
comparison a subscriber can rely on for a non-regressing percentage. -/
def finLeB : JsNum → JsNum → Bool
  | fin a, fin b => decide (a ≤ b)
  | _, _ => false

end JsNum

/-- The `phase` values occurring in the source. -/
inductive Phase where
  | preparing
  | download
  | upload
  | completed
  | error
  | failed
deriving DecidableEq

/-- The `status` values occurring in the source. -/
inductive MStatus where
  | idle
  | preparing
  | downloading
  | uploading
  | completed
  | error
  | failed
deriving DecidableEq

namespace EM

/-!  Embedding of `src/src/managers/EventManager.ts`. -/

/-- The strings `calculateTimeRemaining` can store in
`estimatedTimeRemaining`: `"Calculating..."`, `"Almost done..."` and
`"XXm YYs remaining"` (the latter carrying its two numbers). -/
inductive Eta where
  | calculating
  | almostDone
  | minSec (m s : JsNum)
deriving DecidableEq

/-- The mutable progress snapshot of `EventManager` (`this.progress`).
Fields initialised in the source literal are non-optional; fields that only
appear after a merge (`status`, `remainingFiles`, ...) are `Option`.
The five presentation-string fields (`formattedProgress`, `downloadBar`,
`uploadBar`, `totalSize`, `uploadedSize`) are write-only renderings of the
numeric fields modelled here and are omitted. -/
structure MigrationProgress where
  totalFiles : ℕ
  completedFiles : ℕ
  failedFiles : ℕ
  percentage : JsNum
  errors : List (String × String)
  currentFile : Option String
  bytesUploaded : ℚ
  totalBytes : ℚ
  startTime : ℚ
  estimatedTimeRemaining : Eta
  phase : Phase
  downloadProgress : ℚ
  uploadProgress : ℚ
  downloadSpeed : JsNum
  uploadSpeed : JsNum
  downloadedBytes : ℚ
  uploadedBytes : ℚ
  totalDownloadBytes : ℚ
  totalUploadBytes : ℚ
  status : Option MStatus
  remainingFiles : Option ℕ
  totalBatches : Option ℕ
  endTime : Option ℚ
  currentShardIndex : Option ℕ
  totalShards : Option ℕ
deriving DecidableEq

/-- The initial snapshot built in the field initialiser of `EventManager`. -/
def initialProgress (t0 : ℚ) : MigrationProgress where
  totalFiles := 0
  completedFiles := 0
  failedFiles := 0
  percentage := .fin 0
  errors := []
  currentFile := none
  bytesUploaded := 0
  totalBytes := 0
  startTime := t0
  estimatedTimeRemaining := .calculating
  phase := .preparing
  downloadProgress := 0
  uploadProgress := 0
  downloadSpeed := .fin 0
  uploadSpeed := .fin 0
  downloadedBytes := 0
  uploadedBytes := 0
  totalDownloadBytes := 0
  totalUploadBytes := 0
  status := none
  remainingFiles := none
  totalBatches := none
  endTime := none
  currentShardIndex := none
  totalShards := none

/-- A `Partial<MigrationProgress>` argument of `updateProgress`: every field
optional, `none` meaning "key absent from the update object". -/
structure Upd where
  totalFiles : Option ℕ := none
  completedFiles : Option ℕ := none
  failedFiles : Option ℕ := none
  percentage : Option JsNum := none
  errors : Option (List (String × String)) := none
  currentFile : Option String := none
  bytesUploaded : Option ℚ := none
  totalBytes : Option ℚ := none
  startTime : Option ℚ := none
  estimatedTimeRemaining : Option Eta := none
  phase : Option Phase := none
  downloadProgress : Option ℚ := none
  uploadProgress : Option ℚ := none
  downloadSpeed : Option JsNum := none
  uploadSpeed : Option JsNum := none
  downloadedBytes : Option ℚ := none
  uploadedBytes : Option ℚ := none
  totalDownloadBytes : Option ℚ := none
  totalUploadBytes : Option ℚ := none
  status : Option MStatus := none
  remainingFiles : Option ℕ := none
  totalBatches : Option ℕ := none
  endTime : Option ℚ := none
  currentShardIndex : Option ℕ := none
  totalShards : Option ℕ := none

/-- The object spread `{ ...this.progress, ...update }`. -/
def applyUpd (p : MigrationProgress) (u : Upd) : MigrationProgress where
  totalFiles := u.totalFiles.getD p.totalFiles
  completedFiles := u.completedFiles.getD p.completedFiles
  failedFiles := u.failedFiles.getD p.failedFiles
  percentage := u.percentage.getD p.percentage
  errors := u.errors.getD p.errors
  currentFile := u.currentFile <|> p.currentFile
  bytesUploaded := u.bytesUploaded.getD p.bytesUploaded
  totalBytes := u.totalBytes.getD p.totalBytes
  startTime := u.startTime.getD p.startTime
  estimatedTimeRemaining := u.estimatedTimeRemaining.getD p.estimatedTimeRemaining
  phase := u.phase.getD p.phase
  downloadProgress := u.downloadProgress.getD p.downloadProgress
  uploadProgress := u.uploadProgress.getD p.uploadProgress
  downloadSpeed := u.downloadSpeed.getD p.downloadSpeed
  uploadSpeed := u.uploadSpeed.getD p.uploadSpeed
  downloadedBytes := u.downloadedBytes.getD p.downloadedBytes
  uploadedBytes := u.uploadedBytes.getD p.uploadedBytes
  totalDownloadBytes := u.totalDownloadBytes.getD p.totalDownloadBytes
  totalUploadBytes := u.totalUploadBytes.getD p.totalUploadBytes
  status := u.status <|> p.status
  remainingFiles := u.remainingFiles <|> p.remainingFiles
  totalBatches := u.totalBatches <|> p.totalBatches
  endTime := u.endTime <|> p.endTime
  currentShardIndex := u.currentShardIndex <|> p.currentShardIndex
  totalShards := u.totalShards <|> p.totalShards

/-- Manager-level state: the snapshot plus `this.phaseStartTime`. -/
structure State where
  progress : MigrationProgress
  phaseStartTime : ℚ
deriving DecidableEq

/-- State of a freshly constructed `EventManager` at time `t0`. -/
def initState (t0 : ℚ) : State := ⟨initialProgress t0, t0⟩

/-- `calculateSpeed`: bytes divided by elapsed seconds, the latter clamped to
at least one second (`Math.max(1, ...)`), so the divisor is never zero. -/
def calculateSpeed (bytes startTime now : ℚ) : JsNum :=
  JsNum.div (.fin bytes) (.fin (max 1 ((now - startTime) / 1000)))

/-- `calculateTimeRemaining` of `src/src/managers/EventManager.ts`. -/
def calculateTimeRemaining (bytesProcessed totalBytes startTime now : ℚ) : Eta :=
  if bytesProcessed = 0 then .calculating
  else
    let elapsedMs := now - startTime
    let bytesPerMs := JsNum.div (.fin bytesProcessed) (.fin elapsedMs)
    let remainingMs := JsNum.div (.fin (totalBytes - bytesProcessed)) bytesPerMs
    if remainingMs.ltq 1000 then .almostDone
    else .minSec (JsNum.floorJ (remainingMs.div (.fin 60000)))
      (JsNum.floorJ ((remainingMs.modq 60000).div (.fin 1000)))

/-- The JS idiom `x || 1` on a numeric field. -/
def orOne (q : ℚ) : ℚ := if q = 0 then 1 else q

/-- The weighted blend assigned to `this.progress.percentage`:
`downloadProgress * tdb/(tdb+tub) + uploadProgress * tub/(tdb+tub)`,
with no guard on a zero denominator. -/
def pctgBlend (p : MigrationProgress) : JsNum :=
  JsNum.add
    (JsNum.mul (.fin p.downloadProgress)
      (JsNum.div (.fin p.totalDownloadBytes)
        (.fin (p.totalDownloadBytes + p.totalUploadBytes))))
    (JsNum.mul (.fin p.uploadProgress)
      (JsNum.div (.fin p.totalUploadBytes)
        (.fin (p.totalDownloadBytes + p.totalUploadBytes))))

/-- `EventManager.updateProgress`: reset the phase timer on a phase change,
merge the update into the snapshot, recompute the phase-specific progress,
speed and ETA, then recompute `percentage` as the weighted blend.  The
subscriber receives the resulting snapshot (plus presentation strings, not
modelled). -/
def updateProgress (st : State) (u : Upd) (now : ℚ) : State :=
  let prevPhase := st.progress.phase
  let newPhase := u.phase.getD prevPhase
  let phaseStart := if prevPhase ≠ newPhase then now else st.phaseStartTime
  let p := applyUpd st.progress u
  let p :=
    if p.phase = .download then
      { p with
        downloadProgress := p.downloadedBytes / orOne p.totalDownloadBytes * 100
        downloadSpeed := calculateSpeed p.downloadedBytes phaseStart now
        estimatedTimeRemaining :=
          calculateTimeRemaining p.downloadedBytes p.totalDownloadBytes phaseStart now }
    else if p.phase = .upload then
      { p with
        uploadProgress := p.uploadedBytes / orOne p.totalUploadBytes * 100
        uploadSpeed := calculateSpeed p.uploadedBytes phaseStart now
        estimatedTimeRemaining :=
          calculateTimeRemaining p.uploadedBytes p.totalUploadBytes phaseStart now }
    else p
  ⟨{ p with percentage := pctgBlend p }, phaseStart⟩

/-- `EventManager.updateFileProgress` (the source restricts `phase` to
`download`/`upload`; any other value takes the upload branch, unreachable
from the callers in the source). -/
def updateFileProgress (st : State) (fileKey : String)
    (bytesProcessed totalBytes : ℚ) (ph : Phase) (now : ℚ) : State :=
  let p := st.progress
  let p :=
    if ph = .download then
      { p with
        downloadedBytes := bytesProcessed
        totalDownloadBytes :=
          if p.totalDownloadBytes = 0 then totalBytes else p.totalDownloadBytes }
    else
      { p with
        uploadedBytes := bytesProcessed
        totalUploadBytes :=
          if p.totalUploadBytes = 0 then totalBytes else p.totalUploadBytes }
  let p := { p with currentFile := some fileKey, phase := ph }
  updateProgress ⟨p, st.phaseStartTime⟩ {} now

/-- `EventManager.setTotalBytes`. -/
def setTotalBytes (st : State) (downloadBytes uploadBytes : ℚ) (now : ℚ) : State :=
  updateProgress
    ⟨{ st.progress with
        totalDownloadBytes := downloadBytes
        totalUploadBytes := uploadBytes }, st.phaseStartTime⟩ {} now

/-- `EventManager.emit("fileComplete", ...)`: increment `completedFiles`
and run `updateProgress({})`. -/
def emitFileComplete (st : State) (now : ℚ) : State :=
  updateProgress
    ⟨{ st.progress with completedFiles := st.progress.completedFiles + 1 },
      st.phaseStartTime⟩ {} now

/-- `EventManager.emit("error", ...)`: increment `failedFiles`, append to
`errors` (key defaulted to `"unknown"`), invoke the error subscriber; no
`updateProgress` call. -/
def emitError (st : State) (fileKey : Option String) (msg : String) : State :=
  ⟨{ st.progress with
      failedFiles := st.progress.failedFiles + 1
      errors := st.progress.errors ++ [(fileKey.getD "unknown", msg)] },
    st.phaseStartTime⟩

end EM

namespace Retry

/-!  Embedding of `src/src/managers/RetryManager.ts`.

An async operation that either resolves or throws is modelled as a function
from the (1-based) attempt number to `Except String α`; a thrown error is the
`Except.error` of its message.  `withRetry` returns the final outcome, the
number of times the operation was invoked, and the list of backoff delays
awaited between attempts. -/

/-- The `retry` part of `StorachaMigratorConfig`. -/
structure Config where
  maxAttempts : ℕ
  backoffMs : ℚ
  maxBackoffMs : ℚ

/-- `RetryManager.calculateBackoff`:
`min(backoffMs * 2^(attempt-1), maxBackoffMs)`. -/
def calculateBackoff (cfg : Config) (attempt : ℕ) : ℚ :=
  min (cfg.backoffMs * 2 ^ (attempt - 1)) cfg.maxBackoffMs

/-- Outcome of a `withRetry` call: the result (or the finally thrown error),
how many times the operation ran, and the delays between attempts. -/
structure Outcome (α : Type) where
  result : Except String α
  invocations : ℕ
  delays : List ℚ

/-- The final error thrown after the loop exhausts all attempts. -/
def exhaustedMsg (cfg : Config) (context lastErr : String) : String :=
  "Operation " ++ context ++ " failed after " ++ toString cfg.maxAttempts
    ++ " attempts: " ++ lastErr

/-- The `for` loop of `withRetry`: `attempt` is the current attempt number,
`remaining` the number of attempts still allowed, `lastErr` the message of
the last caught error.  A delay is awaited only when `attempt <
maxAttempts`, i.e. when further attempts remain. -/
def go {α : Type} (cfg : Config) (op : ℕ → Except String α) (context : String) :
    ℕ → ℕ → String → Outcome α
  | _, 0, lastErr => ⟨.error (exhaustedMsg cfg context lastErr), 0, []⟩
  | attempt, r + 1, _ =>
    match op attempt with
    | .ok v => ⟨.ok v, 1, []⟩
    | .error msg =>
      let rest := go cfg op context (attempt + 1) r msg
      ⟨rest.result, rest.invocations + 1,
        if 0 < r then calculateBackoff cfg attempt :: rest.delays else rest.delays⟩

/-- `RetryManager.withRetry`.  `lastError` starts out as
`"No error details available"`, exactly as in the source. -/
def withRetry {α : Type} (cfg : Config) (op : ℕ → Except String α)
    (context : String) : Outcome α :=
  go cfg op context 1 cfg.maxAttempts "No error details available"

/-!  A state-threading variant, for operation bodies that mutate the shared
`EventManager` (its snapshot persists across retry attempts). -/

/-- As `go`, for a body that also transforms a state `σ`. -/
def goS {σ α : Type} (cfg : Config) (op : ℕ → σ → Except String α × σ)
    (context : String) : ℕ → ℕ → String → σ → Outcome α × σ
  | _, 0, lastErr, s => (⟨.error (exhaustedMsg cfg context lastErr), 0, []⟩, s)
  | attempt, r + 1, _, s =>
    match op attempt s with
    | (.ok v, s1) => (⟨.ok v, 1, []⟩, s1)
    | (.error msg, s1) =>
      let rest := goS cfg op context (attempt + 1) r msg s1
      (⟨rest.1.result, rest.1.invocations + 1,
          if 0 < r then calculateBackoff cfg attempt :: rest.1.delays
          else rest.1.delays⟩,
        rest.2)

/-- `withRetry` for a state-transforming body. -/
def withRetryS {σ α : Type} (cfg : Config) (op : ℕ → σ → Except String α × σ)
    (context : String) (s : σ) : Outcome α × σ :=
  goS cfg op context 1 cfg.maxAttempts "No error details available" s

end Retry

namespace Migrator

/-!  Embedding of the orchestration methods of `src/src/StorachaMigrator.ts`.

The adapters (S3 service, Storacha service, MongoDB service) are external
collaborators; each adapter call is modelled by a stub supplied as a
function of the attempt number, returning `Except String _` (`error` for a
thrown exception).  Connections are assumed initialised and the S3 service
configured (the corresponding guard throws are not reachable in the
scenarios of the claims).  The byte-level progress callbacks the services
drive internally touch only byte counters of the shared snapshot, not the
count/error fields the claims below concern, and are not modelled inside
the stubs. -/

/-- `UploadResponse` of `src/src/types/index.ts`. -/
structure UploadResponse where
  success : Bool
  cid : Option String := none
  size : Option ℚ := none
  status : Option String := none
  url : Option String := none
  error : Option String := none
deriving DecidableEq

/-- `FileData` (the buffer is opaque to the orchestration; only the name is
modelled). -/
structure FileData where
  fileName : String
deriving DecidableEq

/-- The body of one `migrateFile` attempt (the function passed to
`withRetry`), threading the `EventManager` state. -/
def migrateFileBody (fetchFile : Except String FileData)
    (uploadOne : FileData → Except String UploadResponse)
    (fileKey : String) (now : ℚ) (em : EM.State) :
    Except String UploadResponse × EM.State :=
  let em := EM.updateProgress em
    { phase := some .preparing, status := some .preparing, startTime := some now,
      currentFile := some fileKey, totalFiles := some 1,
      completedFiles := some 0 } now
  let em := EM.updateProgress em
    { phase := some .download, status := some .downloading } now
  match fetchFile with
  | .error e => (.error e, em)
  | .ok fileData =>
    let em := EM.updateProgress em
      { phase := some .upload, status := some .uploading } now
    match uploadOne fileData with
    | .error e => (.error e, em)
    | .ok result =>
      let em := EM.updateProgress em
        { status := some (if result.success then .completed else .error),
          endTime := some now, completedFiles := some 1,
          percentage := some (.fin 100) } now
      let em := EM.emitFileComplete em now
      (.ok result, em)

/-- `StorachaMigrator.migrateFile`: the whole body wrapped in `withRetry`
with context `migrate file <key>`; there is no try/catch around the
`withRetry` call. -/
def migrateFile (cfg : Retry.Config) (fetchFile : ℕ → Except String FileData)
    (uploadOne : ℕ → FileData → Except String UploadResponse)
    (fileKey : String) (now : ℚ) (em : EM.State) :
    Retry.Outcome UploadResponse × EM.State :=
  Retry.withRetryS cfg
    (fun k s => migrateFileBody (fetchFile k) (uploadOne k) fileKey now s)
    ("migrate file " ++ fileKey) em

/-- Observable side effects of a `migrateDirectory` run: the shared
`EventManager` state, how often the S3 listing ran, and every argument the
destination upload was invoked with. -/
structure DirState where
  em : EM.State
  listCalls : ℕ
  uploadCalls : ℕ
  uploadArgs : List (List FileData)

/-- The body of one `migrateDirectory` attempt.  An empty listing throws
`"⚠️ No files found in directory"` before the destination upload is
reached.  `batchSize` is the validated config value (≥ 1), `totalBatches`
its ceiling division. -/
def migrateDirectoryBody (listFiles : Except String (List String))
    (fetchBatch : List String → Except String (List FileData))
    (uploadDir : List FileData → Except String UploadResponse)
    (directoryPath : String) (batchSize : ℕ) (now : ℚ) (s : DirState) :
    Except String UploadResponse × DirState :=
  let s := { s with listCalls := s.listCalls + 1 }
  match listFiles with
  | .error e => (.error e, s)
  | .ok fileKeys =>
    if fileKeys.length = 0 then (.error "⚠️ No files found in directory", s)
    else
      let em := EM.updateProgress s.em
        { totalFiles := some fileKeys.length, completedFiles := some 0,
          percentage := some (.fin 0), phase := some .preparing,
          status := some .preparing, startTime := some now,
          currentFile := some directoryPath,
          remainingFiles := some fileKeys.length,
          totalBatches := some ((fileKeys.length + batchSize - 1) / batchSize) } now
      let em := EM.updateProgress em
        { phase := some .download, status := some .downloading } now
      match fetchBatch fileKeys with
      | .error e => (.error e, { s with em := em })
      | .ok filesData =>
        let em := EM.updateProgress em
          { phase := some .upload, status := some .uploading } now
        let s := { s with em := em
                          uploadCalls := s.uploadCalls + 1
                          uploadArgs := s.uploadArgs ++ [filesData] }
        match uploadDir filesData with
        | .error e => (.error e, s)
        | .ok result =>
          let em := EM.updateProgress s.em
            { completedFiles := some fileKeys.length,
              percentage := some (.fin 100), phase := some .preparing,
              status := some (if result.success then .completed else .error),
              endTime := some now, remainingFiles := some 0 } now
          (.ok result, { s with em := em })

/-- `StorachaMigrator.migrateDirectory`: the whole body (the listing
included) wrapped in `withRetry` with context `migrate directory <path>`;
again no try/catch around it. -/
def migrateDirectory (cfg : Retry.Config)
    (listFiles : ℕ → Except String (List String))
    (fetchBatch : ℕ → List String → Except String (List FileData))
    (uploadDir : ℕ → List FileData → Except String UploadResponse)
    (directoryPath : String) (batchSize : ℕ) (now : ℚ) (s : DirState) :
    Retry.Outcome UploadResponse × DirState :=
  Retry.withRetryS cfg
    (fun k st => migrateDirectoryBody (listFiles k) (fetchBatch k)
      (uploadDir k) directoryPath batchSize now st)
    ("migrate directory " ++ directoryPath) s

/-- Observable side effects of a `migrateMongoDb` run. -/
structure MongoState where
  em : EM.State
  uploadCalls : ℕ
  uploadArgs : List (List FileData)

/-- The per-collection export loop of `migrateMongoDb`: a successful export
appends the file and bumps the progress counters; a thrown export is caught
in place, reported through `emit("error", ...)`, and the loop continues.
(`n` is `collectionsToExport.length`, positive on every reachable call.) -/
def mongoLoop (fetchCollection : String → Except String FileData) (n : ℕ)
    (now : ℚ) : List String → List FileData × ℕ × EM.State →
    List FileData × ℕ × EM.State
  | [], acc => acc
  | c :: rest, (exported, completed, em) =>
    let em := EM.updateProgress em
      { phase := some .download, status := some .downloading,
        currentFile := some c } now
    match fetchCollection c with
    | .ok fileData =>
      let completed := completed + 1
      let em := EM.updateProgress em
        { completedFiles := some completed,
          percentage := some (.fin ((completed : ℚ) / (n : ℚ) * 100)),
          remainingFiles := some (n - completed) } now
      mongoLoop fetchCollection n now rest (exported ++ [fileData], completed, em)
    | .error e =>
      let em := EM.emitError em (some c) e
      mongoLoop fetchCollection n now rest (exported, completed, em)

/-- The body of one `migrateMongoDb` attempt. -/
def migrateMongoDbBody (listCols : Except String (List String))
    (fetchCollection : String → Except String FileData)
    (uploadDir : List FileData → Except String UploadResponse)
    (collectionName : Option String) (now : ℚ) (s : MongoState) :
    Except String UploadResponse × MongoState :=
  let em := EM.updateProgress s.em
    { phase := some .preparing, status := some .preparing, startTime := some now,
      currentFile := some (collectionName.getD "MongoDB collections"),
      totalFiles := some 0, completedFiles := some 0 } now
  match (match collectionName with
         | some n => Except.ok [n]
         | none => listCols) with
  | .error e => (.error e, { s with em := em })
  | .ok collectionsToExport =>
    if collectionsToExport.length = 0 then
      (.error "⚠️ No collections found to export", { s with em := em })
    else
      let em := EM.updateProgress em
        { totalFiles := some collectionsToExport.length,
          remainingFiles := some collectionsToExport.length } now
      let res := mongoLoop fetchCollection collectionsToExport.length now
        collectionsToExport ([], 0, em)
      let exportedFiles := res.1
      let em := res.2.2
      if exportedFiles.length = 0 then
        (.error "⚠️ No collections were successfully exported", { s with em := em })
      else
        let em := EM.updateProgress em
          { phase := some .upload, status := some .uploading } now
        let s := { s with em := em
                          uploadCalls := s.uploadCalls + 1
                          uploadArgs := s.uploadArgs ++ [exportedFiles] }
        match uploadDir exportedFiles with
        | .error e => (.error e, s)
        | .ok result =>
          let em := EM.updateProgress s.em
            { completedFiles := some exportedFiles.length,
              percentage := some (.fin 100), phase := some .completed,
              status := some (if result.success then .completed else .error),
              endTime := some now, remainingFiles := some 0 } now
          (.ok result, { s with em := em })

/-- `StorachaMigrator.migrateMongoDb`, wrapped in `withRetry`. -/
def migrateMongoDb (cfg : Retry.Config)
    (listCols : ℕ → Except String (List String))
    (fetchCollection : ℕ → String → Except String FileData)
    (uploadDir : ℕ → List FileData → Except String UploadResponse)
    (collectionName : Option String) (now : ℚ) (s : MongoState) :
    Retry.Outcome UploadResponse × MongoState :=
  Retry.withRetryS cfg
    (fun k st => migrateMongoDbBody (listCols k) (fetchCollection k)
      (uploadDir k) collectionName now st)
    ("migrate MongoDB " ++ collectionName.getD "collections") s

end Migrator

namespace SClient

/-!  Embedding of `StorachaClient.uploadDirectoryToStoracha` of
`src/unnamed/part_020`: the `isUploading` reentrancy guard with its
try/catch/finally.  The try-block (client initialisation, the sharded
upload, its progress callbacks) is abstracted by its outcome: either the
`UploadResponse` it returns or the message of the exception it throws. -/

/-- The early-return value when an upload is already in progress. -/
def busyResponse : Migrator.UploadResponse :=
  { success := false, error := some "Upload already in progress",
    status := some "failed" }

/-- What one call to `uploadDirectoryToStoracha` yields: the response, the
`isUploading` flag afterwards, and whether the try-block body ran at all. -/
structure CallResult where
  response : Migrator.UploadResponse
  isUploading : Bool
  bodyStarted : Bool
deriving DecidableEq

/-- `uploadDirectoryToStoracha`: reject immediately when `isUploading` is
set (leaving the flag to the in-flight call); otherwise run the body with
the flag set, map a thrown error to a `success:false` response in the
catch, and clear the flag in the finally on both paths. -/
def uploadDirectoryToStoracha (isUploading : Bool)
    (body : Except String Migrator.UploadResponse) : CallResult :=
  if isUploading then ⟨busyResponse, isUploading, false⟩
  else
    match body with
    | .ok r => ⟨r, false, true⟩
    | .error m =>
      ⟨{ success := false, error := some m, status := some "failed" }, false, true⟩

end SClient

namespace EM15

/-!  Embedding of the `EventManager` variant of `src/unnamed/part_015`
(the richer snapshot with `status`, `processedBytes`, transfer/shard
sub-records and the completed-state forcing in `updateProgress`).

The manager members `phaseStartTime`, `lastUpdateTime` and `speedHistory`
are never read by `updateProgress`/`emit` (the `calculateTimeRemaining`
method that would read `speedHistory` has no caller in the file), so they
are omitted, as are the log-file writes.  `uploadedSize` stores the byte
count whose `formatBytes` rendering the code stores. -/

/-- The strings this variant stores in `estimatedTimeRemaining`:
`"Calculating..."`, `"Complete"`, `"Almost done..."` and the
hour/minute/second renderings of `formatTime` (carrying their numbers). -/
inductive Eta where
  | calculating
  | complete
  | almostDone
  | span (h m s : ℤ)
deriving DecidableEq

/-- JS `Math.round`. -/
def qRound (x : ℚ) : ℤ := ⌊x + 1 / 2⌋

/-- `formatTime(seconds)` of part_015. -/
def formatTime (seconds : ℚ) : Eta :=
  if seconds < 1 then .almostDone
  else
    .span ⌊seconds / 3600⌋
      ⌊(seconds - 3600 * ((⌊seconds / 3600⌋ : ℤ) : ℚ)) / 60⌋
      ⌊seconds - 60 * ((⌊seconds / 60⌋ : ℤ) : ℚ)⌋

/-- The `TransferProgress` record. -/
structure Transfer where
  bytesTransferred : ℚ
  bytesTotal : ℚ
  percentage : ℚ
  speed : ℚ
  estimatedTimeRemaining : Eta
  lastUpdate : ℚ
  lastDownloadBytes : ℚ
  lastUploadBytes : ℚ
  downloadBytes : ℚ
  uploadBytes : ℚ
  downloadSpeed : ℚ
  uploadSpeed : ℚ
deriving DecidableEq

/-- The `ShardProgress` record. -/
structure Shard where
  shardIndex : ℕ
  totalShards : ℕ
  bytesUploaded : ℚ
  bytesTotal : ℚ
  percentage : ℚ
deriving DecidableEq

/-- `updateTransferProgress`: recompute the windowed speeds and the ETA, but
only when at least a second has passed since `lastUpdate`. -/
def updateTransferProgress (t : Transfer) (now : ℚ) : Transfer :=
  let timeDiff := (now - t.lastUpdate) / 1000
  if 1 ≤ timeDiff then
    let t :=
      if 0 < t.downloadBytes then
        { t with downloadSpeed :=
            ((qRound ((t.downloadBytes - t.lastDownloadBytes) / timeDiff) : ℤ) : ℚ) }
      else t
    let t :=
      if 0 < t.uploadBytes then
        { t with uploadSpeed :=
            ((qRound ((t.uploadBytes - t.lastUploadBytes) / timeDiff) : ℤ) : ℚ) }
      else t
    let t := { t with lastDownloadBytes := t.downloadBytes
                      lastUploadBytes := t.uploadBytes
                      lastUpdate := now }
    if 0 < t.uploadSpeed then
      { t with estimatedTimeRemaining :=
          formatTime ((t.bytesTotal - t.uploadBytes) / t.uploadSpeed) }
    else { t with estimatedTimeRemaining := .calculating }
  else t

/-- `updateShardProgress`. -/
def updateShardProgress (sh : Shard) : Shard :=
  if 0 < sh.totalShards then
    { sh with percentage := (sh.shardIndex : ℚ) / (sh.totalShards : ℚ) * 100 }
  else sh

/-- The snapshot built by `initializeProgress` of part_015. -/
structure Progress where
  status : MStatus
  phase : Phase
  percentage : ℚ
  totalFiles : ℕ
  completedFiles : ℕ
  failedFiles : ℕ
  remainingFiles : ℕ
  elapsedTime : ℚ
  totalBytes : ℚ
  processedBytes : ℚ
  bytesUploaded : ℚ
  uploadedSize : ℚ
  downloadSpeed : ℚ
  uploadSpeed : ℚ
  estimatedTimeRemaining : Eta
  downloadedBytes : ℚ
  totalDownloadBytes : ℚ
  uploadedBytes : ℚ
  totalUploadBytes : ℚ
  currentShardIndex : ℕ
  totalShards : ℕ
  errors : List (String × String)
  currentFile : Option String
  transferProgress : Option Transfer
  shardProgress : Option Shard
deriving DecidableEq

/-- `initializeProgress()`. -/
def initialProgress : Progress where
  status := .preparing
  phase := .preparing
  percentage := 0
  totalFiles := 0
  completedFiles := 0
  failedFiles := 0
  remainingFiles := 0
  elapsedTime := 0
  totalBytes := 0
  processedBytes := 0
  bytesUploaded := 0
  uploadedSize := 0
  downloadSpeed := 0
  uploadSpeed := 0
  estimatedTimeRemaining := .calculating
  downloadedBytes := 0
  totalDownloadBytes := 0
  uploadedBytes := 0
  totalUploadBytes := 0
  currentShardIndex := 0
  totalShards := 0
  errors := []
  currentFile := none
  transferProgress := none
  shardProgress := none

/-- A `Partial<MigrationProgress>` update for this variant. -/
structure Upd where
  status : Option MStatus := none
  phase : Option Phase := none
  percentage : Option ℚ := none
  totalFiles : Option ℕ := none
  completedFiles : Option ℕ := none
  failedFiles : Option ℕ := none
  remainingFiles : Option ℕ := none
  elapsedTime : Option ℚ := none
  totalBytes : Option ℚ := none
  processedBytes : Option ℚ := none
  bytesUploaded : Option ℚ := none
  uploadedSize : Option ℚ := none
  downloadSpeed : Option ℚ := none
  uploadSpeed : Option ℚ := none
  estimatedTimeRemaining : Option Eta := none
  downloadedBytes : Option ℚ := none
  totalDownloadBytes : Option ℚ := none
  uploadedBytes : Option ℚ := none
  totalUploadBytes : Option ℚ := none
  currentShardIndex : Option ℕ := none
  totalShards : Option ℕ := none
  errors : Option (List (String × String)) := none
  currentFile : Option String := none
  transferProgress : Option Transfer := none
  shardProgress : Option Shard := none

/-- The spread `{ ...this.progress, ...update }` for this variant. -/
def applyUpd (p : Progress) (u : Upd) : Progress where
  status := u.status.getD p.status
  phase := u.phase.getD p.phase
  percentage := u.percentage.getD p.percentage
  totalFiles := u.totalFiles.getD p.totalFiles
  completedFiles := u.completedFiles.getD p.completedFiles
  failedFiles := u.failedFiles.getD p.failedFiles
  remainingFiles := u.remainingFiles.getD p.remainingFiles
  elapsedTime := u.elapsedTime.getD p.elapsedTime
  totalBytes := u.totalBytes.getD p.totalBytes
  processedBytes := u.processedBytes.getD p.processedBytes
  bytesUploaded := u.bytesUploaded.getD p.bytesUploaded
  uploadedSize := u.uploadedSize.getD p.uploadedSize
  downloadSpeed := u.downloadSpeed.getD p.downloadSpeed
  uploadSpeed := u.uploadSpeed.getD p.uploadSpeed
  estimatedTimeRemaining := u.estimatedTimeRemaining.getD p.estimatedTimeRemaining
  downloadedBytes := u.downloadedBytes.getD p.downloadedBytes
  totalDownloadBytes := u.totalDownloadBytes.getD p.totalDownloadBytes
  uploadedBytes := u.uploadedBytes.getD p.uploadedBytes
  totalUploadBytes := u.totalUploadBytes.getD p.totalUploadBytes
  currentShardIndex := u.currentShardIndex.getD p.currentShardIndex
  totalShards := u.totalShards.getD p.totalShards
  errors := u.errors.getD p.errors
  currentFile := u.currentFile <|> p.currentFile
  transferProgress := u.transferProgress <|> p.transferProgress
  shardProgress := u.shardProgress <|> p.shardProgress

/-- Manager state: the snapshot plus `this.startTime`. -/
structure State where
  progress : Progress
  startTime : ℚ
deriving DecidableEq

/-- `updateProgress` of part_015, in source order: (1) completed-state
forcing rewrites the update in place, (2) the transfer record is advanced
and its speeds copied into the update, (3) the shard record is advanced,
(4) when `totalBytes > 0` the `percentage` of the update is overwritten with
`min(100, processedBytes/totalBytes*100)` computed from the snapshot as it
was BEFORE the merge, (5) `elapsedTime` is stamped, and finally the update
is merged and handed to the subscriber. -/
def updateProgress (st : State) (u : Upd) (now : ℚ) : State :=
  let u :=
    if u.status = some MStatus.completed then
      { u with phase := some .completed
               remainingFiles := some 0
               processedBytes := some st.progress.totalBytes
               percentage := some 100
               bytesUploaded := some st.progress.totalBytes
               uploadedSize := some st.progress.totalBytes
               estimatedTimeRemaining := some .complete
               downloadSpeed := some 0
               uploadSpeed := some 0 }
    else u
  let u :=
    match u.transferProgress with
    | some t =>
      let t := updateTransferProgress t now
      { u with transferProgress := some t
               downloadSpeed := some t.downloadSpeed
               uploadSpeed := some t.uploadSpeed }
    | none => u
  let u :=
    match u.shardProgress with
    | some sh => { u with shardProgress := some (updateShardProgress sh) }
    | none => u
  let overall := min 100 (st.progress.processedBytes / st.progress.totalBytes * 100)
  let u :=
    if 0 < st.progress.totalBytes then { u with percentage := some overall }
    else u
  let u := { u with elapsedTime := some ((now - st.startTime) / 1000) }
  ⟨applyUpd st.progress u, st.startTime⟩

/-- `emit("fileComplete", ...)` of part_015: increment `completedFiles`;
when it reaches `totalFiles`, force the terminal completed state directly
on the snapshot; then run `updateProgress({})`. -/
def emitFileComplete (st : State) (now : ℚ) : State :=
  let p := { st.progress with completedFiles := st.progress.completedFiles + 1 }
  let p :=
    if p.completedFiles = p.totalFiles then
      { p with status := .completed, phase := .completed, percentage := 100,
               remainingFiles := 0 }
    else p
  updateProgress ⟨p, st.startTime⟩ {} now

/-- `emit("error", ...)` of part_015: increment `failedFiles`, set
`status="error"`, append to `errors`, invoke the error subscriber. -/
def emitError (st : State) (fileKey : Option String) (msg : String) : State :=
  ⟨{ st.progress with
      failedFiles := st.progress.failedFiles + 1
      status := .error
      errors := st.progress.errors ++ [(fileKey.getD "unknown", msg)] },
    st.startTime⟩

end EM15

/-!  ## Helper lemmas -/

/-- When the two byte totals do not sum to zero, the weighted blend is the
finite weighted average of the two phase progresses. -/
theorem pctgBlend_fin (p : EM.MigrationProgress)
    (h : p.totalDownloadBytes + p.totalUploadBytes ≠ 0) :
    EM.pctgBlend p = JsNum.fin
      (p.downloadProgress *
          (p.totalDownloadBytes / (p.totalDownloadBytes + p.totalUploadBytes)) +
        p.uploadProgress *
          (p.totalUploadBytes / (p.totalDownloadBytes + p.totalUploadBytes))) := by
  simp [EM.pctgBlend, JsNum.div, JsNum.mul, JsNum.add, h]

/-- Every `updateProgress` call stores exactly the weighted blend of the
state it hands to the subscriber. -/
theorem updateProgress_percentage (st : EM.State) (u : EM.Upd) (now : ℚ) :
    (EM.updateProgress st u now).progress.percentage =
      EM.pctgBlend (EM.updateProgress st u now).progress := rfl

/-- `updateProgress` never changes `failedFiles` beyond the merge itself. -/
theorem updateProgress_failedFiles (st : EM.State) (u : EM.Upd) (now : ℚ) :
    (EM.updateProgress st u now).progress.failedFiles =
      (EM.applyUpd st.progress u).failedFiles := by
  unfold EM.updateProgress
  by_cases hd : (EM.applyUpd st.progress u).phase = Phase.download <;>
    by_cases hu : (EM.applyUpd st.progress u).phase = Phase.upload <;>
      simp [hd, hu]

/-- `updateProgress` never changes `errors` beyond the merge itself. -/
theorem updateProgress_errors (st : EM.State) (u : EM.Upd) (now : ℚ) :
    (EM.updateProgress st u now).progress.errors =
      (EM.applyUpd st.progress u).errors := by
  unfold EM.updateProgress
  by_cases hd : (EM.applyUpd st.progress u).phase = Phase.download <;>
    by_cases hu : (EM.applyUpd st.progress u).phase = Phase.upload <;>
      simp [hd, hu]

/-- `updateProgress` never changes `completedFiles` beyond the merge itself. -/
theorem updateProgress_completedFiles (st : EM.State) (u : EM.Upd) (now : ℚ) :
    (EM.updateProgress st u now).progress.completedFiles =
      (EM.applyUpd st.progress u).completedFiles := by
  unfold EM.updateProgress
  by_cases hd : (EM.applyUpd st.progress u).phase = Phase.download <;>
    by_cases hu : (EM.applyUpd st.progress u).phase = Phase.upload <;>
      simp [hd, hu]

/-- `updateProgress` never changes the two byte totals beyond the merge. -/
theorem updateProgress_totals (st : EM.State) (u : EM.Upd) (now : ℚ) :
    (EM.updateProgress st u now).progress.totalDownloadBytes =
        (EM.applyUpd st.progress u).totalDownloadBytes ∧
      (EM.updateProgress st u now).progress.totalUploadBytes =
        (EM.applyUpd st.progress u).totalUploadBytes := by
  unfold EM.updateProgress
  by_cases hd : (EM.applyUpd st.progress u).phase = Phase.download <;>
    by_cases hu : (EM.applyUpd st.progress u).phase = Phase.upload <;>
      simp [hd, hu]

/-- `downloadProgress` after `updateProgress`: recomputed from the merged
byte counters in the download phase, untouched otherwise. -/
theorem updateProgress_downloadProgress (st : EM.State) (u : EM.Upd) (now : ℚ) :
    (EM.updateProgress st u now).progress.downloadProgress =
      (if (EM.applyUpd st.progress u).phase = Phase.download then
        (EM.applyUpd st.progress u).downloadedBytes /
          EM.orOne (EM.applyUpd st.progress u).totalDownloadBytes * 100
      else (EM.applyUpd st.progress u).downloadProgress) := by
  unfold EM.updateProgress
  by_cases hd : (EM.applyUpd st.progress u).phase = Phase.download <;>
    by_cases hu : (EM.applyUpd st.progress u).phase = Phase.upload <;>
      simp [hd, hu]

/-- `uploadProgress` after `updateProgress`: recomputed from the merged
byte counters in the upload phase, untouched otherwise. -/
theorem updateProgress_uploadProgress (st : EM.State) (u : EM.Upd) (now : ℚ) :
    (EM.updateProgress st u now).progress.uploadProgress =
      (if (EM.applyUpd st.progress u).phase = Phase.upload then
        (EM.applyUpd st.progress u).uploadedBytes /
          EM.orOne (EM.applyUpd st.progress u).totalUploadBytes * 100
      else (EM.applyUpd st.progress u).uploadProgress) := by
  unfold EM.updateProgress
  by_cases hd : (EM.applyUpd st.progress u).phase = Phase.download <;>
    by_cases hu : (EM.applyUpd st.progress u).phase = Phase.upload <;>
      simp [hd, hu]

/-- `orOne` of a non-negative value is positive. -/
theorem orOne_pos {q : ℚ} (h : 0 ≤ q) : 0 < EM.orOne q := by
  unfold EM.orOne
  split
  · norm_num
  · rename_i hne
    exact lt_of_le_of_ne h (Ne.symm hne)

/-- `calculateSpeed` of zero bytes is the finite value 0 (the clamped
elapsed-seconds divisor is at least one, so never zero). -/
theorem calculateSpeed_zero (a b : ℚ) : EM.calculateSpeed 0 a b = JsNum.fin 0 := by
  have hmax : max (1 : ℚ) ((b - a) / 1000) ≠ 0 :=
    ne_of_gt (lt_of_lt_of_le one_pos (le_max_left _ _))
  simp [EM.calculateSpeed, JsNum.div, hmax]

/-- In the upload branch of `updateProgress`, the stored upload speed and
ETA are the ones recomputed from the merged snapshot. -/
theorem updateProgress_upload_branch (st : EM.State) (u : EM.Upd) (now : ℚ)
    (hph : (EM.applyUpd st.progress u).phase = Phase.upload) :
    (EM.updateProgress st u now).progress.uploadSpeed =
      EM.calculateSpeed (EM.applyUpd st.progress u).uploadedBytes
        (if st.progress.phase ≠ u.phase.getD st.progress.phase then now
          else st.phaseStartTime) now ∧
    (EM.updateProgress st u now).progress.estimatedTimeRemaining =
      EM.calculateTimeRemaining (EM.applyUpd st.progress u).uploadedBytes
        (EM.applyUpd st.progress u).totalUploadBytes
        (if st.progress.phase ≠ u.phase.getD st.progress.phase then now
          else st.phaseStartTime) now := by
  have hnd : (EM.applyUpd st.progress u).phase ≠ Phase.download := by simp [hph]
  unfold EM.updateProgress
  simp [hph, hnd]

/-- The retry loop runs the operation at most `remaining` times. -/
theorem retry_go_invocations_le {α : Type} (cfg : Retry.Config)
    (op : ℕ → Except String α) (ctx : String) :
    ∀ (r attempt : ℕ) (lastErr : String),
      (Retry.go cfg op ctx attempt r lastErr).invocations ≤ r := by
  intro r
  induction r with
  | zero => intro attempt lastErr; simp [Retry.go]
  | succ r ih =>
    intro attempt lastErr
    unfold Retry.go
    cases hop : op attempt with
    | ok v => simp
    | error msg =>
      simp only
      exact Nat.succ_le_succ (ih (attempt + 1) msg)

/-- If every attempt before `k` fails and attempt `k` succeeds, the loop
stops at `k` with its value. -/
theorem retry_go_first_success {α : Type} (cfg : Retry.Config)
    (op : ℕ → Except String α) (ctx : String) :
    ∀ (r attempt k : ℕ) (v : α) (lastErr : String),
      attempt ≤ k → k < attempt + r →
      (∀ j, attempt ≤ j → j < k → ∃ e, op j = .error e) →
      op k = .ok v →
      (Retry.go cfg op ctx attempt r lastErr).result = .ok v ∧
        (Retry.go cfg op ctx attempt r lastErr).invocations = k + 1 - attempt := by
  intro r
  induction r with
  | zero =>
    intro attempt k v lastErr h1 h2 _ _
    omega
  | succ r ih =>
    intro attempt k v lastErr h1 h2 hfail hok
    unfold Retry.go
    rcases eq_or_lt_of_le h1 with heq | hlt
    · subst heq
      simp only [hok]
      exact ⟨trivial, by omega⟩
    · obtain ⟨e, he⟩ := hfail attempt (le_refl _) hlt
      simp only [he]
      have hrec := ih (attempt + 1) k v e (by omega) (by omega)
        (fun j hj1 hj2 => hfail j (by omega) hj2) hok
      exact ⟨hrec.1, by simp only [hrec.2]; omega⟩

/-- If every attempt in range fails, the loop runs exactly `remaining`
times, waits the capped exponential backoff after every non-final failed
attempt, and finally throws the enriched message built from the LAST error. -/
theorem retry_go_all_fail {α : Type} (cfg : Retry.Config)
    (op : ℕ → Except String α) (ctx : String) (errf : ℕ → String) :
    ∀ (r attempt : ℕ) (lastErr : String), 0 < r →
      (∀ j, attempt ≤ j → j < attempt + r → op j = .error (errf j)) →
      Retry.go cfg op ctx attempt r lastErr =
        ⟨.error (Retry.exhaustedMsg cfg ctx (errf (attempt + r - 1))), r,
          (List.range (r - 1)).map
            (fun i => Retry.calculateBackoff cfg (attempt + i))⟩ := by
  intro r
  induction r with
  | zero => intro attempt lastErr h; omega
  | succ r ih =>
    intro attempt lastErr _ hfail
    unfold Retry.go
    have hat : op attempt = .error (errf attempt) :=
      hfail attempt (le_refl _) (by omega)
    simp only [hat]
    rcases Nat.eq_zero_or_pos r with hr0 | hrpos
    · subst hr0
      simp [Retry.go]
    · have hrec := ih (attempt + 1) (errf attempt) hrpos
        (fun j hj1 hj2 => hfail j (by omega) (by omega))
      rw [hrec, if_pos hrpos]
      have hidx : attempt + 1 + r - 1 = attempt + (r + 1) - 1 := by omega
      have hfe : (fun i => Retry.calculateBackoff cfg (attempt + 1 + i)) =
          (fun i => Retry.calculateBackoff cfg (attempt + i)) ∘ Nat.succ := by
        funext i
        simp only [Function.comp_apply]
        congr 1
        omega
      have hdel : Retry.calculateBackoff cfg attempt ::
          (List.range (r - 1)).map
            (fun i => Retry.calculateBackoff cfg (attempt + 1 + i)) =
          (List.range (r + 1 - 1)).map
            (fun i => Retry.calculateBackoff cfg (attempt + i)) := by
        obtain ⟨r2, rfl⟩ :=
          Nat.exists_eq_succ_of_ne_zero (Nat.pos_iff_ne_zero.mp hrpos)
        simp only [Nat.succ_sub_one, Nat.add_sub_cancel]
        rw [List.range_succ_eq_map]
        simp only [List.map_cons, List.map_map, Nat.add_zero]
        rw [hfe]
      rw [hidx, hdel]

/-- The middle piece of a three-way string concatenation occurs in it. -/
theorem str_infix_mid (a b c : String) : b.data <:+: (a ++ b ++ c).data :=
  ⟨a.data, c.data, by simp⟩

/-- A stateful retried operation either resolves with some value of the
body or rejects with the enriched retry-exhaustion message — no other
outcome can cross the `withRetry` boundary. -/
theorem retry_goS_result_shape {σ α : Type} (cfg : Retry.Config)
    (op : ℕ → σ → Except String α × σ) (ctx : String) :
    ∀ (r attempt : ℕ) (lastErr : String) (s : σ),
      (∃ v, (Retry.goS cfg op ctx attempt r lastErr s).1.result = .ok v) ∨
      (∃ m, (Retry.goS cfg op ctx attempt r lastErr s).1.result =
        .error (Retry.exhaustedMsg cfg ctx m)) := by
  intro r
  induction r with
  | zero => intro attempt lastErr s; exact Or.inr ⟨lastErr, rfl⟩
  | succ r ih =>
    intro attempt lastErr s
    unfold Retry.goS
    rcases hop : op attempt s with ⟨res, s1⟩
    cases res with
    | ok v => simp only [hop]; exact Or.inl ⟨v, rfl⟩
    | error msg =>
      simp only [hop]
      exact ih (attempt + 1) msg s1

/-- A stateful retried body that throws the same message on every attempt
while transforming the state by `f`: the loop runs `remaining` times,
throws the enriched message, and the state is `f` iterated. -/
theorem retry_goS_const_error {σ α : Type} (cfg : Retry.Config)
    (op : ℕ → σ → Except String α × σ) (ctx : String) (f : σ → σ) (msg : String)
    (hop : ∀ k s, op k s = (.error msg, f s)) :
    ∀ (r attempt : ℕ) (lastErr : String) (s : σ), 0 < r →
      (Retry.goS cfg op ctx attempt r lastErr s).1.result =
          .error (Retry.exhaustedMsg cfg ctx msg) ∧
        (Retry.goS cfg op ctx attempt r lastErr s).1.invocations = r ∧
        (Retry.goS cfg op ctx attempt r lastErr s).2 = f^[r] s := by
  intro r
  induction r with
  | zero => intro attempt lastErr s h; omega
  | succ r ih =>
    intro attempt lastErr s _
    unfold Retry.goS
    simp only [hop attempt s]
    rcases Nat.eq_zero_or_pos r with hr0 | hrpos
    · subst hr0
      exact ⟨rfl, rfl, rfl⟩
    · have hrec := ih (attempt + 1) msg (f s) hrpos
      refine ⟨hrec.1, by simp [hrec.2.1], ?_⟩
      rw [hrec.2.2, ← Function.iterate_succ_apply]

/-- When the first attempt of a stateful retried body succeeds, `withRetry`
returns its value after exactly one invocation and leaves its state. -/
theorem retry_withRetryS_first_ok {σ α : Type} (cfg : Retry.Config)
    (op : ℕ → σ → Except String α × σ) (ctx : String) (s0 : σ) (v : α) (s1 : σ)
    (hmax : 1 ≤ cfg.maxAttempts) (hop : op 1 s0 = (.ok v, s1)) :
    Retry.withRetryS cfg op ctx s0 = (⟨.ok v, 1, []⟩, s1) := by
  obtain ⟨m, hm⟩ := Nat.exists_eq_succ_of_ne_zero (by omega : cfg.maxAttempts ≠ 0)
  rw [Retry.withRetryS, hm]
  unfold Retry.goS
  simp only [hop]

/-- An update whose `failedFiles` key is absent leaves `failedFiles`
unchanged. -/
theorem updateProgress_failedFiles_none (st : EM.State) (u : EM.Upd) (now : ℚ)
    (h : u.failedFiles = none) :
    (EM.updateProgress st u now).progress.failedFiles =
      st.progress.failedFiles := by
  rw [updateProgress_failedFiles]
  simp [EM.applyUpd, h]

/-- An update whose `errors` key is absent leaves `errors` unchanged. -/
theorem updateProgress_errors_none (st : EM.State) (u : EM.Upd) (now : ℚ)
    (h : u.errors = none) :
    (EM.updateProgress st u now).progress.errors = st.progress.errors := by
  rw [updateProgress_errors]
  simp [EM.applyUpd, h]

/-- `emit("error")` increments `failedFiles` by exactly one. -/
theorem emitError_failedFiles (st : EM.State) (k : Option String) (m : String) :
    (EM.emitError st k m).progress.failedFiles =
      st.progress.failedFiles + 1 := rfl

/-- `emit("error")` appends exactly one entry to `errors`. -/
theorem emitError_errors (st : EM.State) (k : Option String) (m : String) :
    (EM.emitError st k m).progress.errors =
      st.progress.errors ++ [(k.getD "unknown", m)] := rfl

/-- One step of the export loop, written out. -/
theorem mongoLoop_cons (fc : String → Except String Migrator.FileData)
    (n : ℕ) (now : ℚ) (c : String) (rest : List String)
    (exported : List Migrator.FileData) (completed : ℕ) (em : EM.State) :
    Migrator.mongoLoop fc n now (c :: rest) (exported, completed, em) =
      (match fc c with
      | .ok fd =>
        Migrator.mongoLoop fc n now rest (exported ++ [fd], completed + 1,
          EM.updateProgress
            (EM.updateProgress em
              { phase := some .download, status := some .downloading,
                currentFile := some c } now)
            { completedFiles := some (completed + 1),
              percentage := some (.fin (((completed + 1 : ℕ) : ℚ) / (n : ℚ) * 100)),
              remainingFiles := some (n - (completed + 1)) } now)
      | .error e2 =>
        Migrator.mongoLoop fc n now rest (exported, completed,
          EM.emitError
            (EM.updateProgress em
              { phase := some .download, status := some .downloading,
                currentFile := some c } now) (some c) e2)) := rfl

/-- The export loop distributes over list concatenation. -/
theorem mongoLoop_append (fc : String → Except String Migrator.FileData)
    (n : ℕ) (now : ℚ) :
    ∀ (xs ys : List String) (acc : List Migrator.FileData × ℕ × EM.State),
      Migrator.mongoLoop fc n now (xs ++ ys) acc =
        Migrator.mongoLoop fc n now ys (Migrator.mongoLoop fc n now xs acc) := by
  intro xs
  induction xs with
  | nil => intro ys acc; rfl
  | cons c rest ih =>
    intro ys acc
    obtain ⟨exported, completed, em⟩ := acc
    rw [List.cons_append, mongoLoop_cons, mongoLoop_cons]
    cases hc : fc c with
    | ok fd => simp only [hc]; exact ih ys _
    | error e2 => simp only [hc]; exact ih ys _

/-- A segment of the export loop in which every export succeeds: the files
are appended in order, the success counter advances by the segment length,
and `failedFiles`/`errors` are untouched. -/
theorem mongoLoop_ok_segment (fc : String → Except String Migrator.FileData)
    (g : String → Migrator.FileData) (n : ℕ) (now : ℚ) :
    ∀ (l : List String), (∀ c ∈ l, fc c = .ok (g c)) →
      ∀ (exported : List Migrator.FileData) (completed : ℕ) (em : EM.State),
      ∃ em2 : EM.State,
        Migrator.mongoLoop fc n now l (exported, completed, em) =
            (exported ++ l.map g, completed + l.length, em2) ∧
          em2.progress.failedFiles = em.progress.failedFiles ∧
          em2.progress.errors = em.progress.errors := by
  intro l
  induction l with
  | nil =>
    intro _ exported completed em
    exact ⟨em, by simp [Migrator.mongoLoop], rfl, rfl⟩
  | cons c rest ih =>
    intro hl exported completed em
    have hc : fc c = .ok (g c) := hl c (by simp)
    obtain ⟨em2, hrun, hff, herr⟩ := ih (fun x hx => hl x (by simp [hx]))
      (exported ++ [g c]) (completed + 1)
      (EM.updateProgress
        (EM.updateProgress em
          { phase := some .download, status := some .downloading,
            currentFile := some c } now)
        { completedFiles := some (completed + 1),
          percentage := some (.fin (((completed + 1 : ℕ) : ℚ) / (n : ℚ) * 100)),
          remainingFiles := some (n - (completed + 1)) } now)
    refine ⟨em2, ?_, ?_, ?_⟩
    · unfold Migrator.mongoLoop
      simp only [hc]
      rw [hrun]
      simp only [Prod.mk.injEq, List.map_cons, List.length_cons]
      refine ⟨by simp, by omega, trivial⟩
    · rw [hff, updateProgress_failedFiles_none _ _ _ rfl,
        updateProgress_failedFiles_none _ _ _ rfl]
    · rw [herr, updateProgress_errors_none _ _ _ rfl,
        updateProgress_errors_none _ _ _ rfl]

/-- The export loop over a list in which exactly one element throws: the
succeeding exports all survive in order, `failedFiles` grows by one, and
`errors` gains exactly the failed entry. -/
theorem mongoLoop_one_bad (fc : String → Except String Migrator.FileData)
    (g : String → Migrator.FileData) (n : ℕ) (now : ℚ) (bad e : String)
    (l1 l2 : List String)
    (hok1 : ∀ c ∈ l1, fc c = .ok (g c)) (hok2 : ∀ c ∈ l2, fc c = .ok (g c))
    (hbad : fc bad = .error e) :
    ∀ em : EM.State, ∃ em2 : EM.State,
      Migrator.mongoLoop fc n now (l1 ++ bad :: l2) ([], 0, em) =
          (l1.map g ++ l2.map g, l1.length + l2.length, em2) ∧
        em2.progress.failedFiles = em.progress.failedFiles + 1 ∧
        em2.progress.errors = em.progress.errors ++ [(bad, e)] := by
  intro em
  obtain ⟨emA, hrunA, hffA, herrA⟩ := mongoLoop_ok_segment fc g n now l1 hok1 [] 0 em
  obtain ⟨emC, hrunC, hffC, herrC⟩ := mongoLoop_ok_segment fc g n now l2 hok2
    (([] : List Migrator.FileData) ++ l1.map g) (0 + l1.length)
    (EM.emitError
      (EM.updateProgress emA
        { phase := some .download, status := some .downloading,
          currentFile := some bad } now)
      (some bad) e)
  refine ⟨emC, ?_, ?_, ?_⟩
  · rw [mongoLoop_append, hrunA]
    unfold Migrator.mongoLoop
    simp only [hbad]
    rw [hrunC]
    simp only [Prod.mk.injEq]
    refine ⟨by simp, by omega, trivial⟩
  · rw [hffC, emitError_failedFiles, updateProgress_failedFiles_none _ _ _ rfl, hffA]
  · rw [herrC, emitError_errors, updateProgress_errors_none _ _ _ rfl, herrA]
    simp

/-!  ## The claims -/

/-- C10: calling `uploadDirectoryToStoracha` while `isUploading` is set
immediately yields the `success:false` response with error "Upload already
in progress" without running the upload body (and leaves the flag to the
in-flight call); a call that does run leaves the flag cleared on both its
completion paths, so a subsequent call is not rejected and its body runs. -/
theorem claim_C10_upload_guard :
    (∀ body : Except String Migrator.UploadResponse,
      SClient.uploadDirectoryToStoracha true body =
        ⟨SClient.busyResponse, true, false⟩) ∧
    (∀ body : Except String Migrator.UploadResponse,
      (SClient.uploadDirectoryToStoracha false body).isUploading = false) ∧
    (∀ body next : Except String Migrator.UploadResponse,
      (SClient.uploadDirectoryToStoracha
        (SClient.uploadDirectoryToStoracha false body).isUploading next).bodyStarted
        = true) := by
  refine ⟨fun body => rfl, fun body => ?_, fun body next => ?_⟩
  · cases body <;> rfl
  · cases body <;> cases next <;> rfl

/-- C7 (failing-input evaluation): in the part_015 `updateProgress`, setting
`status := completed` on a snapshot with `totalBytes = 100` and
`processedBytes = 50` does force `remainingFiles = 0`,
`processedBytes = totalBytes`, the `"Complete"` ETA and zero speeds, but the
later overall-progress recomputation overwrites the forced `percentage =
100` with the STALE ratio `min(100, 50/100*100) = 50`: the resulting
snapshot has `percentage = 50`, not `100` as the claim (and the explicit
`update.percentage = 100` assignment in the code) intends. -/
theorem claim_C7_completed_forcing_eval :
    (EM15.updateProgress
        ⟨{ EM15.initialProgress with totalBytes := 100, processedBytes := 50 }, 0⟩
        { status := some .completed } 1000).progress.status = MStatus.completed ∧
    (EM15.updateProgress
        ⟨{ EM15.initialProgress with totalBytes := 100, processedBytes := 50 }, 0⟩
        { status := some .completed } 1000).progress.phase = Phase.completed ∧
    (EM15.updateProgress
        ⟨{ EM15.initialProgress with totalBytes := 100, processedBytes := 50 }, 0⟩
        { status := some .completed } 1000).progress.remainingFiles = 0 ∧
    (EM15.updateProgress
        ⟨{ EM15.initialProgress with totalBytes := 100, processedBytes := 50 }, 0⟩
        { status := some .completed } 1000).progress.processedBytes = 100 ∧
    (EM15.updateProgress
        ⟨{ EM15.initialProgress with totalBytes := 100, processedBytes := 50 }, 0⟩
        { status := some .completed } 1000).progress.estimatedTimeRemaining =
        EM15.Eta.complete ∧
    (EM15.updateProgress
        ⟨{ EM15.initialProgress with totalBytes := 100, processedBytes := 50 }, 0⟩
        { status := some .completed } 1000).progress.downloadSpeed = 0 ∧
    (EM15.updateProgress
        ⟨{ EM15.initialProgress with totalBytes := 100, processedBytes := 50 }, 0⟩
        { status := some .completed } 1000).progress.uploadSpeed = 0 ∧
    (EM15.updateProgress
        ⟨{ EM15.initialProgress with totalBytes := 100, processedBytes := 50 }, 0⟩
        { status := some .completed } 1000).progress.percentage = 50 := by
  refine ⟨?_, ?_, ?_, ?_, ?_, ?_, ?_, ?_⟩ <;>
    · simp [EM15.updateProgress, EM15.applyUpd, EM15.initialProgress]
      try norm_num

/-- C3: for every configuration with `maxAttempts ≥ 1` and every operation:
`withRetry` invokes the operation at most `maxAttempts` times; it returns
the value of the first successful attempt `k` having invoked the operation
exactly `k` times (no further invocations); and when every attempt throws,
the operation is invoked exactly `maxAttempts` times, the delay before
retry `k+1` is `min(backoffMs * 2^(k-1), maxBackoffMs)` (position `k-1` of
the delays list holds `min(backoffMs * 2^(k-1), maxBackoffMs)`), and the
final error message embeds the context string, the attempt count, and the
message of the last underlying error. -/
theorem claim_C3_retry {α : Type} (cfg : Retry.Config) (op : ℕ → Except String α)
    (context : String) (hmax : 1 ≤ cfg.maxAttempts) :
    (Retry.withRetry cfg op context).invocations ≤ cfg.maxAttempts ∧
    (∀ (k : ℕ) (v : α), 1 ≤ k → k ≤ cfg.maxAttempts →
      (∀ j, 1 ≤ j → j < k → ∃ e, op j = .error e) → op k = .ok v →
      (Retry.withRetry cfg op context).result = .ok v ∧
        (Retry.withRetry cfg op context).invocations = k) ∧
    (∀ errf : ℕ → String,
      (∀ j, 1 ≤ j → j ≤ cfg.maxAttempts → op j = .error (errf j)) →
      (Retry.withRetry cfg op context).invocations = cfg.maxAttempts ∧
      (Retry.withRetry cfg op context).delays =
        (List.range (cfg.maxAttempts - 1)).map
          (fun k => min (cfg.backoffMs * 2 ^ k) cfg.maxBackoffMs) ∧
      (Retry.withRetry cfg op context).result =
        .error ("Operation " ++ context ++ " failed after " ++
          toString cfg.maxAttempts ++ " attempts: " ++ errf cfg.maxAttempts) ∧
      context.data <:+:
        ("Operation " ++ context ++ " failed after " ++
          toString cfg.maxAttempts ++ " attempts: " ++ errf cfg.maxAttempts).data ∧
      (toString cfg.maxAttempts).data <:+:
        ("Operation " ++ context ++ " failed after " ++
          toString cfg.maxAttempts ++ " attempts: " ++ errf cfg.maxAttempts).data ∧
      (errf cfg.maxAttempts).data <:+:
        ("Operation " ++ context ++ " failed after " ++
          toString cfg.maxAttempts ++ " attempts: " ++ errf cfg.maxAttempts).data) := by
  refine ⟨retry_go_invocations_le cfg op context cfg.maxAttempts 1 _, ?_, ?_⟩
  · intro k v hk1 hk2 hfail hok
    have h := retry_go_first_success cfg op context cfg.maxAttempts 1 k v
      "No error details available" hk1 (by omega) hfail hok
    have h2 := h.2
    have h1 := h.1
    rw [Retry.withRetry]
    exact ⟨h1, by omega⟩
  · intro errf hfail
    have h := retry_go_all_fail cfg op context errf cfg.maxAttempts 1
      "No error details available" (by omega)
      (fun j hj1 hj2 => hfail j hj1 (by omega))
    have hidx : 1 + cfg.maxAttempts - 1 = cfg.maxAttempts := by omega
    rw [hidx] at h
    have hmsg : Retry.exhaustedMsg cfg context (errf cfg.maxAttempts) =
        "Operation " ++ context ++ " failed after " ++
          toString cfg.maxAttempts ++ " attempts: " ++ errf cfg.maxAttempts := rfl
    refine ⟨by rw [Retry.withRetry, h], ?_, by rw [Retry.withRetry, h, hmsg], ?_, ?_, ?_⟩
    · rw [Retry.withRetry, h]
      refine List.map_congr_left (fun i _ => ?_)
      have hi : 1 + i - 1 = i := by omega
      simp only [Retry.calculateBackoff, hi]
    · exact ⟨"Operation ".data,
        (" failed after " ++ toString cfg.maxAttempts ++ " attempts: " ++
          errf cfg.maxAttempts).data, by simp⟩
    · exact ⟨("Operation " ++ context ++ " failed after ").data,
        (" attempts: " ++ errf cfg.maxAttempts).data, by simp⟩
    · exact ⟨("Operation " ++ context ++ " failed after " ++
          toString cfg.maxAttempts ++ " attempts: ").data, [], by simp⟩

/-- Witness for C3: `maxAttempts = 3`, `backoffMs = 100`, `maxBackoffMs =
150`, an operation that always throws `"boom"`: three invocations, delays
`[100, 150]` (the second doubling capped by `maxBackoffMs`), and the
enriched final error message. -/
theorem claim_C3_witness :
    (Retry.withRetry ⟨3, 100, 150⟩
        (fun _ => (Except.error "boom" : Except String ℕ)) "job").invocations = 3 ∧
    (Retry.withRetry ⟨3, 100, 150⟩
        (fun _ => (Except.error "boom" : Except String ℕ)) "job").delays = [100, 150] ∧
    (Retry.withRetry ⟨3, 100, 150⟩
        (fun _ => (Except.error "boom" : Except String ℕ)) "job").result =
      .error "Operation job failed after 3 attempts: boom" := by
  have h := claim_C3_retry ⟨3, 100, 150⟩
    (fun _ => (Except.error "boom" : Except String ℕ)) "job" (by norm_num)
  obtain ⟨-, -, hC⟩ := h
  obtain ⟨h1, h2, h3, -⟩ := hC (fun _ => "boom") (fun j _ _ => rfl)
  refine ⟨h1, ?_, ?_⟩
  · rw [h2]
    simp [List.range_succ]
    norm_num [min_def]
  · rw [h3]
    rfl

/-- C1 (counterexample): the emitted percentage is recomputed from the
current byte counters on every call, with nothing enforcing monotonicity:
within one migration (no new migration call in between), an update that
lowers `downloadedBytes` from 50 to 10 makes the emitted percentage regress
from 50 to 10, refuting "percentage values delivered to subscribers are
non-decreasing". -/
theorem claim_C1_counterexample :
    (EM.updateProgress (EM.initState 0)
        { phase := some .download, downloadedBytes := some 50,
          totalDownloadBytes := some 100 } 1).progress.percentage = JsNum.fin 50 ∧
    (EM.updateProgress
        (EM.updateProgress (EM.initState 0)
          { phase := some .download, downloadedBytes := some 50,
            totalDownloadBytes := some 100 } 1)
        { downloadedBytes := some 10 } 2).progress.percentage = JsNum.fin 10 ∧
    (10 : ℚ) < 50 := by
  refine ⟨?_, ?_, by norm_num⟩ <;>
    simp [EM.updateProgress, EM.applyUpd, EM.initState, EM.initialProgress, EM.orOne,
      EM.calculateSpeed, EM.calculateTimeRemaining, EM.pctgBlend, JsNum.div, JsNum.mul,
      JsNum.add, JsNum.ltq]

/-- C1 (amended): the percentage is a pure function of the current
counters; it is non-decreasing across an `updateProgress` call provided the
update does not lower a byte counter and does not touch the byte totals or
the two latched phase progresses (which is how the engine drives it), the
totals being non-negative with a positive sum (otherwise the percentage is
NaN, see C6), and the previous emission being consistent (its percentage is
the stored blend, true of every `updateProgress` result).  The code never
resets the snapshot at the start of a new migration call, so the percentage
does not return to 0 for a new migration either, unless the counters are
explicitly reset. -/
theorem claim_C1_amended (st : EM.State) (u : EM.Upd) (now : ℚ)
    (hcons : st.progress.percentage = EM.pctgBlend st.progress)
    (htdb : 0 ≤ st.progress.totalDownloadBytes)
    (htub : 0 ≤ st.progress.totalUploadBytes)
    (hsum : 0 < st.progress.totalDownloadBytes + st.progress.totalUploadBytes)
    (hdinv : st.progress.downloadProgress ≤
      st.progress.downloadedBytes / EM.orOne st.progress.totalDownloadBytes * 100)
    (huinv : st.progress.uploadProgress ≤
      st.progress.uploadedBytes / EM.orOne st.progress.totalUploadBytes * 100)
    (hdb : st.progress.downloadedBytes ≤
      u.downloadedBytes.getD st.progress.downloadedBytes)
    (hub : st.progress.uploadedBytes ≤
      u.uploadedBytes.getD st.progress.uploadedBytes)
    (hnd : u.totalDownloadBytes = none) (hnu : u.totalUploadBytes = none)
    (hndp : u.downloadProgress = none) (hnup : u.uploadProgress = none) :
    JsNum.finLeB st.progress.percentage
      (EM.updateProgress st u now).progress.percentage = true := by
  have hS : st.progress.totalDownloadBytes + st.progress.totalUploadBytes ≠ 0 :=
    ne_of_gt hsum
  have hod : 0 < EM.orOne st.progress.totalDownloadBytes := orOne_pos htdb
  have hou : 0 < EM.orOne st.progress.totalUploadBytes := orOne_pos htub
  have h1 : (EM.applyUpd st.progress u).totalDownloadBytes =
      st.progress.totalDownloadBytes := by simp [EM.applyUpd, hnd]
  have h2 : (EM.applyUpd st.progress u).totalUploadBytes =
      st.progress.totalUploadBytes := by simp [EM.applyUpd, hnu]
  have hpdp : (EM.applyUpd st.progress u).downloadProgress =
      st.progress.downloadProgress := by simp [EM.applyUpd, hndp]
  have hpup : (EM.applyUpd st.progress u).uploadProgress =
      st.progress.uploadProgress := by simp [EM.applyUpd, hnup]
  have hpdb : (EM.applyUpd st.progress u).downloadedBytes =
      u.downloadedBytes.getD st.progress.downloadedBytes := by simp [EM.applyUpd]
  have hpub : (EM.applyUpd st.progress u).uploadedBytes =
      u.uploadedBytes.getD st.progress.uploadedBytes := by simp [EM.applyUpd]
  have htots := updateProgress_totals st u now
  have hSnew : (EM.updateProgress st u now).progress.totalDownloadBytes +
      (EM.updateProgress st u now).progress.totalUploadBytes ≠ 0 := by
    rw [htots.1, htots.2, h1, h2]; exact hS
  rw [hcons, pctgBlend_fin st.progress hS, updateProgress_percentage,
    pctgBlend_fin _ hSnew, updateProgress_downloadProgress,
    updateProgress_uploadProgress, htots.1, htots.2, h1, h2, hpdp, hpup,
    hpdb, hpub]
  simp only [JsNum.finLeB, decide_eq_true_eq]
  have hwd : 0 ≤ st.progress.totalDownloadBytes /
      (st.progress.totalDownloadBytes + st.progress.totalUploadBytes) :=
    div_nonneg htdb hsum.le
  have hwu : 0 ≤ st.progress.totalUploadBytes /
      (st.progress.totalDownloadBytes + st.progress.totalUploadBytes) :=
    div_nonneg htub hsum.le
  have hdle : st.progress.downloadProgress ≤
      (if (EM.applyUpd st.progress u).phase = Phase.download then
        u.downloadedBytes.getD st.progress.downloadedBytes /
          EM.orOne st.progress.totalDownloadBytes * 100
      else st.progress.downloadProgress) := by
    split
    · refine le_trans hdinv ?_
      gcongr
    · exact le_refl _
  have hule : st.progress.uploadProgress ≤
      (if (EM.applyUpd st.progress u).phase = Phase.upload then
        u.uploadedBytes.getD st.progress.uploadedBytes /
          EM.orOne st.progress.totalUploadBytes * 100
      else st.progress.uploadProgress) := by
    split
    · refine le_trans huinv ?_
      gcongr
    · exact le_refl _
  exact add_le_add (mul_le_mul_of_nonneg_right hdle hwd)
    (mul_le_mul_of_nonneg_right hule hwu)

/-- Witness for C1 (amended): a concrete consistent state (reached by one
`updateProgress` call) followed by an update that only raises
`downloadedBytes` emits a finite, non-decreasing percentage. -/
theorem claim_C1_witness :
    JsNum.finLeB
      (EM.updateProgress (EM.initState 0)
        { phase := some .download, downloadedBytes := some 50,
          totalDownloadBytes := some 100 } 1).progress.percentage
      (EM.updateProgress
        (EM.updateProgress (EM.initState 0)
          { phase := some .download, downloadedBytes := some 50,
            totalDownloadBytes := some 100 } 1)
        { downloadedBytes := some 80 } 2).progress.percentage = true := by
  refine claim_C1_amended _ _ 2 (updateProgress_percentage _ _ _)
    ?_ ?_ ?_ ?_ ?_ ?_ ?_ rfl rfl rfl rfl <;>
    · simp [EM.updateProgress, EM.applyUpd, EM.initState, EM.initialProgress, EM.orOne,
        EM.calculateSpeed, EM.calculateTimeRemaining, EM.pctgBlend, JsNum.div, JsNum.mul,
        JsNum.add, JsNum.ltq]
      try norm_num

/-- C2: `updateProgress` stores as the overall percentage exactly
`downloadProgress * (totalDownloadBytes / (totalDownloadBytes +
totalUploadBytes)) + uploadProgress * (totalUploadBytes /
(totalDownloadBytes + totalUploadBytes))`, computed over the snapshot it
emits, whenever the totals do not sum to zero.  (The 62.5 instance of the
claim is the witness below.) -/
theorem claim_C2_weighted_blend (st : EM.State) (u : EM.Upd) (now : ℚ)
    (h : (EM.updateProgress st u now).progress.totalDownloadBytes +
        (EM.updateProgress st u now).progress.totalUploadBytes ≠ 0) :
    (EM.updateProgress st u now).progress.percentage =
      JsNum.fin
        ((EM.updateProgress st u now).progress.downloadProgress *
            ((EM.updateProgress st u now).progress.totalDownloadBytes /
              ((EM.updateProgress st u now).progress.totalDownloadBytes +
                (EM.updateProgress st u now).progress.totalUploadBytes)) +
          (EM.updateProgress st u now).progress.uploadProgress *
            ((EM.updateProgress st u now).progress.totalUploadBytes /
              ((EM.updateProgress st u now).progress.totalDownloadBytes +
                (EM.updateProgress st u now).progress.totalUploadBytes))) := by
  rw [updateProgress_percentage]
  exact pctgBlend_fin _ h

/-- Witness for C2: with `totalDownloadBytes = 100`, `totalUploadBytes =
300`, the download complete (100/100, latched while in the download phase)
and the upload at 150/300, the emitted percentage is exactly 62.5. -/
theorem claim_C2_witness :
    (EM.updateProgress
      (EM.updateProgress (EM.initState 0)
        { phase := some .download, downloadedBytes := some 100,
          totalDownloadBytes := some 100, totalUploadBytes := some 300 } 1)
      { phase := some .upload, uploadedBytes := some 150 } 2).progress.percentage
      = JsNum.fin (125 / 2) := by
  have h := claim_C2_weighted_blend
    (EM.updateProgress (EM.initState 0)
      { phase := some .download, downloadedBytes := some 100,
        totalDownloadBytes := some 100, totalUploadBytes := some 300 } 1)
    { phase := some .upload, uploadedBytes := some 150 } 2
    (by
      simp [EM.updateProgress, EM.applyUpd, EM.initState, EM.initialProgress, EM.orOne,
        EM.calculateSpeed, EM.calculateTimeRemaining, EM.pctgBlend, JsNum.div, JsNum.mul,
        JsNum.add, JsNum.ltq]
      norm_num)
  rw [h]
  simp [EM.updateProgress, EM.applyUpd, EM.initState, EM.initialProgress, EM.orOne,
    EM.calculateSpeed, EM.calculateTimeRemaining, EM.pctgBlend, JsNum.div, JsNum.mul,
    JsNum.add, JsNum.ltq]
  norm_num

/-- C6 (counterexample): on the initial snapshot both byte totals are zero,
and an `updateProgress` call (here one merely setting the upload phase)
emits `percentage = NaN`: the weight computation divides zero by zero and
no file-count fallback exists anywhere in the code, refuting "never
produces NaN ... the overall percentage falls back to a file-count-based
ratio". -/
theorem claim_C6_counterexample :
    (EM.updateProgress (EM.initState 0)
        { phase := some .upload } 1).progress.totalDownloadBytes = 0 ∧
    (EM.updateProgress (EM.initState 0)
        { phase := some .upload } 1).progress.totalUploadBytes = 0 ∧
    (EM.updateProgress (EM.initState 0)
        { phase := some .upload } 1).progress.percentage = JsNum.nan := by
  refine ⟨?_, ?_, ?_⟩ <;>
    simp [EM.updateProgress, EM.applyUpd, EM.initState, EM.initialProgress, EM.orOne,
      EM.calculateSpeed, EM.calculateTimeRemaining, EM.pctgBlend, JsNum.div, JsNum.mul,
      JsNum.add, JsNum.ltq]

/-- C6 (amended): an upload-phase `updateProgress` with `totalUploadBytes =
0` and `uploadedBytes = 0` (the zero-division scenario of the claim) stores
`uploadProgress = 0` (the code divides by `totalUploadBytes || 1`), a
finite zero upload speed (the elapsed-seconds divisor is clamped to at
least 1), the `"Calculating..."` ETA, and — provided the OTHER total is
positive — a finite percentage equal to the latched `downloadProgress`.
When both totals are zero, however, the percentage is NaN (see the
counterexample); no file-count fallback exists. -/
theorem claim_C6_amended (st : EM.State) (u : EM.Upd) (now : ℚ)
    (hph : (EM.applyUpd st.progress u).phase = Phase.upload)
    (htub : (EM.applyUpd st.progress u).totalUploadBytes = 0)
    (hub : (EM.applyUpd st.progress u).uploadedBytes = 0)
    (htdb : 0 < (EM.applyUpd st.progress u).totalDownloadBytes) :
    (EM.updateProgress st u now).progress.uploadProgress = 0 ∧
    (EM.updateProgress st u now).progress.uploadSpeed = JsNum.fin 0 ∧
    (EM.updateProgress st u now).progress.estimatedTimeRemaining =
      EM.Eta.calculating ∧
    (EM.updateProgress st u now).progress.percentage =
      JsNum.fin ((EM.applyUpd st.progress u).downloadProgress) := by
  have hnd : (EM.applyUpd st.progress u).phase ≠ Phase.download := by simp [hph]
  have hbr := updateProgress_upload_branch st u now hph
  have hup0 : (EM.updateProgress st u now).progress.uploadProgress = 0 := by
    rw [updateProgress_uploadProgress, if_pos hph, hub, htub]
    simp [EM.orOne]
  refine ⟨hup0, ?_, ?_, ?_⟩
  · rw [hbr.1, hub]
    exact calculateSpeed_zero _ _
  · rw [hbr.2, hub]
    simp [EM.calculateTimeRemaining]
  · have htots := updateProgress_totals st u now
    have hSnew : (EM.updateProgress st u now).progress.totalDownloadBytes +
        (EM.updateProgress st u now).progress.totalUploadBytes ≠ 0 := by
      rw [htots.1, htots.2, htub]
      simpa using ne_of_gt htdb
    rw [updateProgress_percentage, pctgBlend_fin _ hSnew,
      updateProgress_downloadProgress, if_neg hnd, hup0, htots.1, htots.2, htub]
    have : (EM.applyUpd st.progress u).totalDownloadBytes ≠ 0 := ne_of_gt htdb
    field_simp

/-- Witness for C6 (amended): a concrete upload-phase update with
`totalUploadBytes = 0`, `uploadedBytes = 0` and `totalDownloadBytes = 40`
yields zero upload progress, a finite zero speed, the `"Calculating..."`
ETA, and the finite percentage 0. -/
theorem claim_C6_witness :
    (EM.updateProgress (EM.initState 0)
        { phase := some .upload, totalDownloadBytes := some 40 } 1).progress.uploadProgress
        = 0 ∧
    (EM.updateProgress (EM.initState 0)
        { phase := some .upload, totalDownloadBytes := some 40 } 1).progress.uploadSpeed
        = JsNum.fin 0 ∧
    (EM.updateProgress (EM.initState 0)
        { phase := some .upload, totalDownloadBytes := some 40 } 1).progress.estimatedTimeRemaining
        = EM.Eta.calculating ∧
    (EM.updateProgress (EM.initState 0)
        { phase := some .upload, totalDownloadBytes := some 40 } 1).progress.percentage
        = JsNum.fin 0 := by
  have h := claim_C6_amended (EM.initState 0)
    { phase := some .upload, totalDownloadBytes := some 40 } 1
    (by simp [EM.applyUpd, EM.initState, EM.initialProgress])
    (by simp [EM.applyUpd, EM.initState, EM.initialProgress])
    (by simp [EM.applyUpd, EM.initState, EM.initialProgress])
    (by simp [EM.applyUpd, EM.initState, EM.initialProgress])
  refine ⟨h.1, h.2.1, h.2.2.1, ?_⟩
  rw [h.2.2.2]
  simp [EM.applyUpd, EM.initState, EM.initialProgress]

/-- C4 (counterexample): `migrateDirectory` on a prefix with an empty
listing does NOT return a `success:false` result — the "No files found"
error is thrown inside the `withRetry` block, so the listing is retried
`maxAttempts` (= 3) times and the call finally rejects with the enriched
retry-exhaustion error.  The destination upload is indeed never invoked. -/
theorem claim_C4_counterexample :
    (Migrator.migrateDirectory ⟨3, 100, 150⟩ (fun _ => Except.ok [])
        (fun _ _ => Except.error "x") (fun _ _ => Except.error "x") "dir" 5 0
        ⟨EM.initState 0, 0, 0, []⟩).1.result =
      .error
        "Operation migrate directory dir failed after 3 attempts: ⚠️ No files found in directory" ∧
    (Migrator.migrateDirectory ⟨3, 100, 150⟩ (fun _ => Except.ok [])
        (fun _ _ => Except.error "x") (fun _ _ => Except.error "x") "dir" 5 0
        ⟨EM.initState 0, 0, 0, []⟩).2.listCalls = 3 ∧
    (Migrator.migrateDirectory ⟨3, 100, 150⟩ (fun _ => Except.ok [])
        (fun _ _ => Except.error "x") (fun _ _ => Except.error "x") "dir" 5 0
        ⟨EM.initState 0, 0, 0, []⟩).2.uploadCalls = 0 :=
  ⟨rfl, rfl, rfl⟩

/-- C4 (amended): for every adapter behaviour whose listing is empty on
every attempt, `migrateDirectory` never invokes the destination upload, but
it RETRIES the listing exactly `maxAttempts` times and then rejects (the
promise throws, it does not resolve to a `success:false` result) with the
enriched message embedding "No files found in directory". -/
theorem claim_C4_amended (cfg : Retry.Config)
    (listFiles : ℕ → Except String (List String))
    (fetchBatch : ℕ → List String → Except String (List Migrator.FileData))
    (uploadDir : ℕ → List Migrator.FileData → Except String Migrator.UploadResponse)
    (directoryPath : String) (batchSize : ℕ) (now : ℚ) (s0 : Migrator.DirState)
    (hmax : 0 < cfg.maxAttempts)
    (hlist : ∀ k, listFiles k = .ok []) :
    (Migrator.migrateDirectory cfg listFiles fetchBatch uploadDir directoryPath
        batchSize now s0).1.result =
      .error ("Operation " ++ ("migrate directory " ++ directoryPath) ++
        " failed after " ++ toString cfg.maxAttempts ++ " attempts: " ++
        "⚠️ No files found in directory") ∧
    (Migrator.migrateDirectory cfg listFiles fetchBatch uploadDir directoryPath
        batchSize now s0).2.listCalls = s0.listCalls + cfg.maxAttempts ∧
    (Migrator.migrateDirectory cfg listFiles fetchBatch uploadDir directoryPath
        batchSize now s0).2.uploadCalls = s0.uploadCalls ∧
    (Migrator.migrateDirectory cfg listFiles fetchBatch uploadDir directoryPath
        batchSize now s0).2.uploadArgs = s0.uploadArgs := by
  have hbody : ∀ (k : ℕ) (s : Migrator.DirState),
      Migrator.migrateDirectoryBody (listFiles k) (fetchBatch k) (uploadDir k)
        directoryPath batchSize now s =
        (.error "⚠️ No files found in directory",
          { s with listCalls := s.listCalls + 1 }) := by
    intro k s
    simp [Migrator.migrateDirectoryBody, hlist k]
  have h := retry_goS_const_error cfg
    (fun k st => Migrator.migrateDirectoryBody (listFiles k) (fetchBatch k)
      (uploadDir k) directoryPath batchSize now st)
    ("migrate directory " ++ directoryPath)
    (fun s => { s with listCalls := s.listCalls + 1 })
    "⚠️ No files found in directory" (fun k s => hbody k s)
    cfg.maxAttempts 1 "No error details available" s0 hmax
  have hiter : ∀ (n : ℕ) (s : Migrator.DirState),
      ((fun s => { s with listCalls := s.listCalls + 1 })^[n] s).listCalls =
          s.listCalls + n ∧
        ((fun s => { s with listCalls := s.listCalls + 1 })^[n] s).uploadCalls =
          s.uploadCalls ∧
        ((fun s => { s with listCalls := s.listCalls + 1 })^[n] s).uploadArgs =
          s.uploadArgs := by
    intro n
    induction n with
    | zero => intro s; simp
    | succ n ih =>
      intro s
      rw [Function.iterate_succ_apply']
      obtain ⟨i1, i2, i3⟩ := ih s
      exact ⟨by simp [i1]; omega, by simp [i2], by simp [i3]⟩
  have hstate := h.2.2
  refine ⟨h.1, ?_, ?_, ?_⟩
  · rw [Migrator.migrateDirectory, Retry.withRetryS, hstate]
    exact (hiter cfg.maxAttempts s0).1
  · rw [Migrator.migrateDirectory, Retry.withRetryS, hstate]
    exact (hiter cfg.maxAttempts s0).2.1
  · rw [Migrator.migrateDirectory, Retry.withRetryS, hstate]
    exact (hiter cfg.maxAttempts s0).2.2

/-- Witness for C4 (amended): the concrete empty-listing run with
`maxAttempts = 2`. -/
theorem claim_C4_witness :
    (Migrator.migrateDirectory ⟨2, 100, 150⟩ (fun _ => Except.ok [])
        (fun _ _ => Except.error "y") (fun _ _ => Except.error "y") "docs" 4 0
        ⟨EM.initState 0, 0, 0, []⟩).1.result =
      .error ("Operation " ++ ("migrate directory " ++ "docs") ++
        " failed after " ++ toString (2 : ℕ) ++ " attempts: " ++
        "⚠️ No files found in directory") ∧
    (Migrator.migrateDirectory ⟨2, 100, 150⟩ (fun _ => Except.ok [])
        (fun _ _ => Except.error "y") (fun _ _ => Except.error "y") "docs" 4 0
        ⟨EM.initState 0, 0, 0, []⟩).2.listCalls = 0 + 2 ∧
    (Migrator.migrateDirectory ⟨2, 100, 150⟩ (fun _ => Except.ok [])
        (fun _ _ => Except.error "y") (fun _ _ => Except.error "y") "docs" 4 0
        ⟨EM.initState 0, 0, 0, []⟩).2.uploadCalls = 0 ∧
    (Migrator.migrateDirectory ⟨2, 100, 150⟩ (fun _ => Except.ok [])
        (fun _ _ => Except.error "y") (fun _ _ => Except.error "y") "docs" 4 0
        ⟨EM.initState 0, 0, 0, []⟩).2.uploadArgs = [] :=
  claim_C4_amended ⟨2, 100, 150⟩ (fun _ => Except.ok [])
    (fun _ _ => Except.error "y") (fun _ _ => Except.error "y") "docs" 4 0
    ⟨EM.initState 0, 0, 0, []⟩ (by norm_num) (fun _ => rfl)

/-- C5 (counterexample): with a source adapter whose fetch throws on every
attempt, `migrateFile` does NOT resolve to a structured
`UploadResult{success:false}` — the exception crosses the public boundary:
after retry exhaustion the call rejects with the enriched error. -/
theorem claim_C5_counterexample :
    (Migrator.migrateFile ⟨2, 100, 150⟩ (fun _ => Except.error "boom")
        (fun _ _ => Except.ok { success := true }) "f" 0 (EM.initState 0)).1.result =
      .error "Operation migrate file f failed after 2 attempts: boom" := rfl

/-- C5 (amended): `migrateFile` and `migrateDirectory` have no try/catch at
the public boundary: every call either resolves with a structured
`UploadResponse` the destination adapter returned (which is how
service-level failures, already mapped to `success:false` inside the
services, reach the caller), or rejects with the enriched retry-exhaustion
error — internal throws are not converted to `success:false` results. -/
theorem claim_C5_amended :
    (∀ (cfg : Retry.Config) (fetchFile : ℕ → Except String Migrator.FileData)
      (uploadOne : ℕ → Migrator.FileData → Except String Migrator.UploadResponse)
      (fileKey : String) (now : ℚ) (em : EM.State),
      (∃ r, (Migrator.migrateFile cfg fetchFile uploadOne fileKey now em).1.result =
        .ok r) ∨
      (∃ m, (Migrator.migrateFile cfg fetchFile uploadOne fileKey now em).1.result =
        .error ("Operation " ++ ("migrate file " ++ fileKey) ++ " failed after " ++
          toString cfg.maxAttempts ++ " attempts: " ++ m))) ∧
    (∀ (cfg : Retry.Config) (listFiles : ℕ → Except String (List String))
      (fetchBatch : ℕ → List String → Except String (List Migrator.FileData))
      (uploadDir : ℕ → List Migrator.FileData → Except String Migrator.UploadResponse)
      (directoryPath : String) (batchSize : ℕ) (now : ℚ) (s0 : Migrator.DirState),
      (∃ r, (Migrator.migrateDirectory cfg listFiles fetchBatch uploadDir
        directoryPath batchSize now s0).1.result = .ok r) ∨
      (∃ m, (Migrator.migrateDirectory cfg listFiles fetchBatch uploadDir
        directoryPath batchSize now s0).1.result =
        .error ("Operation " ++ ("migrate directory " ++ directoryPath) ++
          " failed after " ++ toString cfg.maxAttempts ++ " attempts: " ++ m))) := by
  constructor
  · intro cfg fetchFile uploadOne fileKey now em
    exact retry_goS_result_shape cfg _ _ cfg.maxAttempts 1
      "No error details available" em
  · intro cfg listFiles fetchBatch uploadDir directoryPath batchSize now s0
    exact retry_goS_result_shape cfg _ _ cfg.maxAttempts 1
      "No error details available" s0

/-- C8 (counterexample): over n = 1 collections where the (exactly one)
export throws and the rest (vacuously) succeed, the final upload is NOT
performed with the successful (empty) subset: `migrateMongoDb` aborts the
whole operation, rejecting with "No collections were successfully
exported" after retry exhaustion, and the destination upload is never
invoked. -/
theorem claim_C8_counterexample :
    (Migrator.migrateMongoDb ⟨1, 100, 150⟩ (fun _ => Except.ok [])
        (fun _ _ => Except.error "boom") (fun _ _ => Except.ok { success := true })
        (some "c") 0 ⟨EM.initState 0, 0, []⟩).1.result =
      .error
        "Operation migrate MongoDB c failed after 1 attempts: ⚠️ No collections were successfully exported" ∧
    (Migrator.migrateMongoDb ⟨1, 100, 150⟩ (fun _ => Except.ok [])
        (fun _ _ => Except.error "boom") (fun _ _ => Except.ok { success := true })
        (some "c") 0 ⟨EM.initState 0, 0, []⟩).2.uploadCalls = 0 :=
  ⟨rfl, rfl⟩

/-- C8 (amended): over collections `l1 ++ bad :: l2` where exactly the
export of `bad` throws and every other export succeeds, PROVIDED at least
one other collection exists (`l1 ++ l2` nonempty — for n = 1 the code
instead aborts, see the counterexample): the failure is caught and
reported (`failedFiles` is incremented by one and `errors` gains exactly
the entry for `bad`), the remaining collections are still exported, the
final upload is invoked exactly once with the successful subset in order,
the call resolves with the upload result, and the final snapshot's
`completedFiles` is the number of successful exports. -/
theorem claim_C8_amended (cfg : Retry.Config)
    (listCols : ℕ → Except String (List String))
    (fetchCollection : ℕ → String → Except String Migrator.FileData)
    (uploadDir : ℕ → List Migrator.FileData → Except String Migrator.UploadResponse)
    (now : ℚ) (s0 : Migrator.MongoState)
    (l1 l2 : List String) (bad : String) (g : String → Migrator.FileData)
    (e : String) (r : Migrator.UploadResponse)
    (hmax : 1 ≤ cfg.maxAttempts)
    (hcols : listCols 1 = .ok (l1 ++ bad :: l2))
    (hok : ∀ c ∈ l1 ++ l2, fetchCollection 1 c = .ok (g c))
    (hbad : fetchCollection 1 bad = .error e)
    (hne : l1.length + l2.length ≠ 0)
    (hupload : uploadDir 1 (l1.map g ++ l2.map g) = .ok r) :
    (Migrator.migrateMongoDb cfg listCols fetchCollection uploadDir none now
        s0).1.result = .ok r ∧
    (Migrator.migrateMongoDb cfg listCols fetchCollection uploadDir none now
        s0).2.uploadCalls = s0.uploadCalls + 1 ∧
    (Migrator.migrateMongoDb cfg listCols fetchCollection uploadDir none now
        s0).2.uploadArgs = s0.uploadArgs ++ [l1.map g ++ l2.map g] ∧
    (Migrator.migrateMongoDb cfg listCols fetchCollection uploadDir none now
        s0).2.em.progress.failedFiles = s0.em.progress.failedFiles + 1 ∧
    (Migrator.migrateMongoDb cfg listCols fetchCollection uploadDir none now
        s0).2.em.progress.errors = s0.em.progress.errors ++ [(bad, e)] ∧
    (Migrator.migrateMongoDb cfg listCols fetchCollection uploadDir none now
        s0).2.em.progress.completedFiles = l1.length + l2.length := by
  have hlen0 : ¬ (l1 ++ bad :: l2).length = 0 := by simp
  obtain ⟨emC, hloop, hff, herr⟩ := mongoLoop_one_bad (fetchCollection 1) g
    (l1 ++ bad :: l2).length now bad e l1 l2
    (fun c hc => hok c (by simp [hc])) (fun c hc => hok c (by simp [hc])) hbad
    (EM.updateProgress
      (EM.updateProgress s0.em
        { phase := some .preparing, status := some .preparing,
          startTime := some now,
          currentFile := some ((none : Option String).getD "MongoDB collections"),
          totalFiles := some 0, completedFiles := some 0 } now)
      { totalFiles := some (l1 ++ bad :: l2).length,
        remainingFiles := some (l1 ++ bad :: l2).length } now)
  have hexplen : ¬ (l1.map g ++ l2.map g).length = 0 := by
    simp only [List.length_append, List.length_map]
    exact hne
  have hbody : Migrator.migrateMongoDbBody (listCols 1) (fetchCollection 1)
      (uploadDir 1) none now s0 =
      (.ok r,
        { em := EM.updateProgress
            (EM.updateProgress emC
              { phase := some .upload, status := some .uploading } now)
            { completedFiles := some (l1.map g ++ l2.map g).length,
              percentage := some (.fin 100), phase := some .completed,
              status := some (if r.success then .completed else .error),
              endTime := some now, remainingFiles := some 0 } now,
          uploadCalls := s0.uploadCalls + 1,
          uploadArgs := s0.uploadArgs ++ [l1.map g ++ l2.map g] }) := by
    simp only [Migrator.migrateMongoDbBody, hcols]
    rw [if_neg hlen0, hloop]
    dsimp only
    rw [if_neg hexplen, hupload]
  have hM := retry_withRetryS_first_ok cfg
    (fun k st => Migrator.migrateMongoDbBody (listCols k) (fetchCollection k)
      (uploadDir k) none now st)
    ("migrate MongoDB " ++ (none : Option String).getD "collections") s0 r
    _ hmax hbody
  rw [Migrator.migrateMongoDb, hM]
  refine ⟨rfl, rfl, rfl, ?_, ?_, ?_⟩
  · show (EM.updateProgress
        (EM.updateProgress emC
          { phase := some .upload, status := some .uploading } now)
        _ now).progress.failedFiles = s0.em.progress.failedFiles + 1
    rw [updateProgress_failedFiles_none _ _ _ rfl,
      updateProgress_failedFiles_none _ _ _ rfl, hff,
      updateProgress_failedFiles_none _ _ _ rfl,
      updateProgress_failedFiles_none _ _ _ rfl]
  · show (EM.updateProgress
        (EM.updateProgress emC
          { phase := some .upload, status := some .uploading } now)
        _ now).progress.errors = s0.em.progress.errors ++ [(bad, e)]
    rw [updateProgress_errors_none _ _ _ rfl,
      updateProgress_errors_none _ _ _ rfl, herr,
      updateProgress_errors_none _ _ _ rfl,
      updateProgress_errors_none _ _ _ rfl]
  · rw [updateProgress_completedFiles]
    simp [EM.applyUpd]

/-- Witness for C8 (amended): three collections `["a", "b", "c"]` where the
export of `"b"` throws: the upload happens once with the two successful
exports, `failedFiles` ends at 1, `errors` has exactly the `"b"` entry,
and `completedFiles` is 2. -/
theorem claim_C8_witness :
    (Migrator.migrateMongoDb ⟨3, 100, 150⟩ (fun _ => Except.ok ["a", "b", "c"])
        (fun _ c => if c = "b" then Except.error "boom" else Except.ok ⟨c ++ ".json"⟩)
        (fun _ _ => Except.ok { success := true }) none 0
        ⟨EM.initState 0, 0, []⟩).1.result = .ok { success := true } ∧
    (Migrator.migrateMongoDb ⟨3, 100, 150⟩ (fun _ => Except.ok ["a", "b", "c"])
        (fun _ c => if c = "b" then Except.error "boom" else Except.ok ⟨c ++ ".json"⟩)
        (fun _ _ => Except.ok { success := true }) none 0
        ⟨EM.initState 0, 0, []⟩).2.uploadCalls = 0 + 1 ∧
    (Migrator.migrateMongoDb ⟨3, 100, 150⟩ (fun _ => Except.ok ["a", "b", "c"])
        (fun _ c => if c = "b" then Except.error "boom" else Except.ok ⟨c ++ ".json"⟩)
        (fun _ _ => Except.ok { success := true }) none 0
        ⟨EM.initState 0, 0, []⟩).2.uploadArgs = [] ++ [[⟨"a.json"⟩, ⟨"c.json"⟩]] ∧
    (Migrator.migrateMongoDb ⟨3, 100, 150⟩ (fun _ => Except.ok ["a", "b", "c"])
        (fun _ c => if c = "b" then Except.error "boom" else Except.ok ⟨c ++ ".json"⟩)
        (fun _ _ => Except.ok { success := true }) none 0
        ⟨EM.initState 0, 0, []⟩).2.em.progress.failedFiles =
      (EM.initState 0).progress.failedFiles + 1 ∧
    (Migrator.migrateMongoDb ⟨3, 100, 150⟩ (fun _ => Except.ok ["a", "b", "c"])
        (fun _ c => if c = "b" then Except.error "boom" else Except.ok ⟨c ++ ".json"⟩)
        (fun _ _ => Except.ok { success := true }) none 0
        ⟨EM.initState 0, 0, []⟩).2.em.progress.errors =
      (EM.initState 0).progress.errors ++ [("b", "boom")] ∧
    (Migrator.migrateMongoDb ⟨3, 100, 150⟩ (fun _ => Except.ok ["a", "b", "c"])
        (fun _ c => if c = "b" then Except.error "boom" else Except.ok ⟨c ++ ".json"⟩)
        (fun _ _ => Except.ok { success := true }) none 0
        ⟨EM.initState 0, 0, []⟩).2.em.progress.completedFiles = 2 := by
  have h := claim_C8_amended ⟨3, 100, 150⟩ (fun _ => Except.ok ["a", "b", "c"])
    (fun _ c => if c = "b" then Except.error "boom" else Except.ok ⟨c ++ ".json"⟩)
    (fun _ _ => Except.ok { success := true }) 0 ⟨EM.initState 0, 0, []⟩
    ["a"] ["c"] "b" (fun c => ⟨c ++ ".json"⟩) "boom" { success := true }
    (by norm_num) rfl
    (by intro c hc; fin_cases hc <;> rfl) rfl (by norm_num) rfl
  exact h

/-- C9 (failing-input evaluation): in the part_015 `emit("fileComplete")`,
with `totalFiles = 1`, `completedFiles = 0`, `totalBytes = 100` and
`processedBytes = 50`, the event increments `completedFiles` to exactly 1
and, since `completedFiles == totalFiles`, forces `status = completed`,
`phase = completed` and `remainingFiles = 0` — but the `updateProgress({})`
it then runs overwrites the forced `percentage = 100` with
`min(100, 50/100*100) = 50`, so the emitted terminal snapshot has
`percentage = 50`, not `100` as the claim states. -/
theorem claim_C9_fileComplete_eval :
    (EM15.emitFileComplete
        ⟨{ EM15.initialProgress with totalFiles := 1, totalBytes := 100, processedBytes := 50 },
          0⟩ 1000).progress.completedFiles = 1 ∧
    (EM15.emitFileComplete
        ⟨{ EM15.initialProgress with totalFiles := 1, totalBytes := 100, processedBytes := 50 },
          0⟩ 1000).progress.status = MStatus.completed ∧
    (EM15.emitFileComplete
        ⟨{ EM15.initialProgress with totalFiles := 1, totalBytes := 100, processedBytes := 50 },
          0⟩ 1000).progress.phase = Phase.completed ∧
    (EM15.emitFileComplete
        ⟨{ EM15.initialProgress with totalFiles := 1, totalBytes := 100, processedBytes := 50 },
          0⟩ 1000).progress.remainingFiles = 0 ∧
    (EM15.emitFileComplete
        ⟨{ EM15.initialProgress with totalFiles := 1, totalBytes := 100, processedBytes := 50 },
          0⟩ 1000).progress.percentage = 50 := by
  refine ⟨?_, ?_, ?_, ?_, ?_⟩ <;>
    · simp [EM15.emitFileComplete, EM15.updateProgress, EM15.applyUpd,
        EM15.initialProgress]
      try norm_num

end Storacha
